import Mathlib

/-
  Verification development for the E-Minor reference compiler
  (`eminorcc`, single-file C++17: Source -> Lexer -> Parser (AST) ->
  StarCode -> IR(HEX) -> Optimize -> Link -> Disasm).

  The definitions below are a shallow embedding of that program:
  * the lexer works on a list of characters with an explicit
    line/column cursor, exactly mirroring `Lexer::get`/`peek`;
  * the parser is the same recursive-descent/Pratt code in an
    `Except` monad; its general recursion (loops in the C++) is fed
    by a structural fuel argument so that everything evaluates in the
    kernel; fuel exhaustion yields a distinguished error that never
    coincides with a real parse error;
  * `std::hash<std::string>` (implementation-defined) is modelled as
    an explicit parameter `h` of the emitter;
  * machine integers are `Nat`/`Int` with explicit `% 2 ^ 32` /
    `% 2 ^ 64` where the C++ converts or wraps.
-/

namespace EMinor

/-! ## C character classification (C locale / ASCII) -/

def isDigitC (c : Char) : Bool := 48 ≤ c.toNat && c.toNat ≤ 57

def isAlphaC (c : Char) : Bool :=
  (65 ≤ c.toNat && c.toNat ≤ 90) || (97 ≤ c.toNat && c.toNat ≤ 122)

def isAlnumC (c : Char) : Bool := isAlphaC c || isDigitC c

def isXdigitC (c : Char) : Bool :=
  isDigitC c || (65 ≤ c.toNat && c.toNat ≤ 70) || (97 ≤ c.toNat && c.toNat ≤ 102)

def isSpaceC (c : Char) : Bool :=
  c = ' ' || c = '\t' || c = '\n' || c.toNat = 11 || c.toNat = 12 || c.toNat = 13

/-- `isIdentStart` from the source. -/
def isIdentStart (c : Char) : Bool := isAlphaC c || c = '_' || c = '$'

/-- `isIdent` from the source (note: it admits `/` for import paths). -/
def isIdentC (c : Char) : Bool := isAlnumC c || c = '_' || c = '$' || c = '/'

/-! ## Tokens -/

inductive Tok where
  | End | Error
  | LParen | RParen | LBrace | RBrace | LBracket | RBracket | Comma | Semi | Colon | Dot
  | Assign | Eq | Ne | Lt | Gt | Le | Ge | Plus | Minus | Star | Slash | Percent
  | Bang | Tilde | AndAnd | OrOr
  | Ident | Number | String | Bool | Duration | Stamp
  | AtMain | AtEntryPoint | Module | Import | Export | Function | Worker | Let | Goto
  | If | Else | EndIf | Loop | Return | Print
  | HashInit | HashLease | HashSublease | HashRelease | HashLoad | HashCall | HashExit
  | HashIf | HashElse | HashEndIf | HashLoop
  | HashRender | HashInput | HashOutput | HashSend | HashRecv | HashSpawn | HashJoin
  | HashStamp | HashExpire | HashSleep | HashYield | HashError
  | Initialize | AssignValue | InvokeFunction | TerminateExecution
  | Label
  deriving DecidableEq, Repr

structure Token where
  kind : Tok
  lex : String
  line : Nat
  col : Nat
  ival : Int := 0
  bval : Bool := false
  du : Nat := 0
  deriving DecidableEq, Repr

def mkT (k : Tok) (lx : String) (L C : Nat) : Token :=
  { kind := k, lex := lx, line := L, col := C }

/-! ## Lexer -/

namespace Lexer

/-- The lexer cursor: remaining characters plus the 1-based line/column
of the next character, as maintained by `Lexer::get`. -/
structure LexState where
  rest : List Char
  line : Nat
  col : Nat
  deriving DecidableEq, Repr

/-- One `get()`: newline bumps the line and resets the column,
any other byte bumps the column. -/
def updPos (L C : Nat) (c : Char) : Nat × Nat :=
  if c = '\n' then (L + 1, 1) else (L, C + 1)

def advPos (L C : Nat) : List Char → Nat × Nat
  | [] => (L, C)
  | c :: cs =>
    let p := updPos L C c
    advPos p.1 p.2 cs

/-- Advance a state past the prefix of `st.rest` that a sub-lexer
consumed, leaving `rem`; positions are updated character by character
exactly as successive `get()` calls would. -/
def consume (st : LexState) (rem : List Char) : LexState :=
  let eaten := st.rest.take (st.rest.length - rem.length)
  let p := advPos st.line st.col eaten
  ⟨rem, p.1, p.2⟩

/-- `while (P(peek())) get();` split into (consumed, remainder). -/
def spanP (P : Char → Bool) : List Char → List Char × List Char
  | [] => ([], [])
  | c :: cs =>
    if P c then
      let r := spanP P cs
      (c :: r.1, r.2)
    else ([], c :: cs)

def startsWithL (pre l : List Char) : Bool := pre.isPrefixOf l

/-- Line-comment body: `while (peek() && peek() != '\n') get();`
(the newline itself is left for the whitespace round). -/
def dropLineCmt : List Char → List Char
  | [] => []
  | c :: cs => if c = '\n' then c :: cs else dropLineCmt cs

/-- Block-comment body after the opening `/ *`:
`while (peek() && !starts("* /")) get(); if (starts("* /")) skip both;`.
On an unterminated comment this silently consumes to end of input. -/
def dropBlockCmt : List Char → List Char
  | [] => []
  | '*' :: '/' :: cs => cs
  | _ :: cs => dropBlockCmt cs

/-- The `for(;;)` of `Lexer::skip`, one round per fuel unit; each
continuing round consumed at least the two-character comment opener,
so `length + 1` fuel (supplied by `skip`) never runs out. -/
def skipGo : Nat → List Char → List Char
  | 0, l => l
  | fuel + 1, l =>
    let l1 := (spanP isSpaceC l).2
    if startsWithL ['/', '/'] l1 then skipGo fuel (dropLineCmt (l1.drop 2))
    else if startsWithL ['/', '*'] l1 then skipGo fuel (dropBlockCmt (l1.drop 2))
    else l1

def skip (st : LexState) : LexState := consume st (skipGo (st.rest.length + 1) st.rest)

def escChar (e : Char) : Char :=
  if e = 'n' then '\n' else if e = 't' then '\t' else e

/-- The scan loop of `Lexer::lexString` (opening quote already
consumed): accumulate the payload, handling `\\`-escapes; `none` when
the closing quote is missing (end of input reached first). -/
def lexStrGo (acc : String) : List Char → Option (String × List Char)
  | [] => none
  | c :: cs =>
    if c = '"' then some (acc, cs)
    else if c = '\\' then
      match cs with
      | [] => none
      | e :: cs2 => lexStrGo (acc.push (escChar e)) cs2
    else lexStrGo (acc.push c) cs

/-- `Lexer::lexString` (L, C are the position of the opening quote). -/
def lexString (st : LexState) (L C : Nat) : Token × LexState :=
  match lexStrGo "" st.rest with
  | some (s, rem) => (mkT .String s L C, consume st rem)
  | none => (mkT .Error "unterminated string" L C, consume st [])

/-- `strtoull(num, nullptr, 10)`: saturates at `ULLONG_MAX` when out
of range. -/
def strtoull10 (ds : List Char) : Nat :=
  let v := ds.foldl (fun a c => a * 10 + (c.toNat - 48)) 0
  if v ≥ 2 ^ 64 then 2 ^ 64 - 1 else v

def hexDigitVal (c : Char) : Nat :=
  if isDigitC c then c.toNat - 48
  else if 97 ≤ c.toNat then c.toNat - 87
  else c.toNat - 55

/-- `strtoull(num, nullptr, 16)` applied to the digits after the `0x`
prefix. -/
def strtoull16 (ds : List Char) : Nat :=
  let v := ds.foldl (fun a c => a * 16 + hexDigitVal c) 0
  if v ≥ 2 ^ 64 then 2 ^ 64 - 1 else v

/-- The `(long long)` view of an unsigned 64-bit value. -/
def i64ofU64 (v : Nat) : Int :=
  if v < 2 ^ 63 then (v : Int) else (v : Int) - 2 ^ 64

/-- `Lexer::lexNumberOrDuration`: a decimal or `0x`/`0X` hex run,
optionally followed by a maximal alphabetic suffix; the five unit
suffixes scale to nanoseconds in unsigned 64-bit arithmetic, any other
suffix is a lex error (the source writes the suffix between single
quotes; the quotes are elided here). -/
def lexNumberOrDuration (st : LexState) (L C : Nat) : Token × LexState :=
  let hex := startsWithL ['0', 'x'] st.rest || startsWithL ['0', 'X'] st.rest
  let digsRem := if hex then spanP isXdigitC (st.rest.drop 2) else spanP isDigitC st.rest
  let digs := digsRem.1
  let numLex : String := if hex then ⟨st.rest.take 2 ++ digs⟩ else ⟨digs⟩
  let sufRem := spanP isAlphaC digsRem.2
  let suf := sufRem.1
  let val := if hex then strtoull16 digs else strtoull10 digs
  if suf ≠ [] then
    let sufS : String := ⟨suf⟩
    let vOpt : Option Nat :=
      if sufS = "ns" then some val
      else if sufS = "ms" then some (val * 1000000 % 2 ^ 64)
      else if sufS = "s" then some (val * 1000000000 % 2 ^ 64)
      else if sufS = "m" then some (val * 60 * 1000000000 % 2 ^ 64)
      else if sufS = "h" then some (val * 3600 * 1000000000 % 2 ^ 64)
      else none
    match vOpt with
    | some v =>
      ({ kind := .Duration, lex := numLex ++ sufS, line := L, col := C, du := v },
        consume st sufRem.2)
    | none =>
      (mkT .Error ("bad duration unit " ++ sufS) L C, consume st sufRem.2)
  else
    ({ kind := .Number, lex := numLex, line := L, col := C, ival := i64ofU64 val },
      consume st digsRem.2)

/-- The keyword table `Lexer::kw`. -/
def kw (id : String) : Tok :=
  if id = "true" then .Bool else if id = "false" then .Bool
  else if id = "@main" then .AtMain else if id = "@entry_point" then .AtEntryPoint
  else if id = "@module" then .Module else if id = "@import" then .Import
  else if id = "@export" then .Export
  else if id = "function" then .Function else if id = "worker" then .Worker
  else if id = "let" then .Let else if id = "goto" then .Goto
  else if id = "if" then .If else if id = "else" then .Else
  else if id = "endif" then .EndIf else if id = "loop" then .Loop
  else if id = "return" then .Return else if id = "print" then .Print
  else if id = "#init" then .HashInit else if id = "#lease" then .HashLease
  else if id = "#sublease" then .HashSublease else if id = "#release" then .HashRelease
  else if id = "#load" then .HashLoad else if id = "#call" then .HashCall
  else if id = "#exi\x74" then .HashExit
  else if id = "#if" then .HashIf else if id = "#else" then .HashElse
  else if id = "#endif" then .HashEndIf else if id = "#loop" then .HashLoop
  else if id = "#render" then .HashRender else if id = "#input" then .HashInput
  else if id = "#output" then .HashOutput
  else if id = "#send" then .HashSend else if id = "#recv" then .HashRecv
  else if id = "#spawn" then .HashSpawn else if id = "#join" then .HashJoin
  else if id = "#stamp" then .HashStamp else if id = "#expire" then .HashExpire
  else if id = "#sleep" then .HashSleep else if id = "#yield" then .HashYield
  else if id = "#error" then .HashError
  else if id = "initialize" then .Initialize else if id = "assign" then .AssignValue
  else if id = "invoke" then .InvokeFunction else if id = "terminate" then .TerminateExecution
  else .Ident

/-- `Lexer::next`. Note two source quirks kept faithfully: an
unexpected character is reported without being consumed, and the
`true`/`false` re-check after `kw` is dead code, so every `Bool` token
leaves `bval` at its default `false`. -/
def nextToken (st0 : LexState) : Token × LexState :=
  let st := skip st0
  let L := st.line
  let C := st.col
  match st.rest with
  | [] => (mkT .End "" L C, st)
  | c :: cs =>
    if c = ':' then
      match cs with
      | [] => (mkT .Error "expected label" L C, consume st cs)
      | d :: _ =>
        if isIdentStart d then
          let r := spanP isIdentC cs
          (mkT .Label ⟨r.1⟩ L C, consume st r.2)
        else (mkT .Error "expected label" L C, consume st cs)
    else if c = '(' then (mkT .LParen "(" L C, consume st cs)
    else if c = ')' then (mkT .RParen ")" L C, consume st cs)
    else if c = '{' then (mkT .LBrace "\x7b" L C, consume st cs)
    else if c = '}' then (mkT .RBrace "\x7d" L C, consume st cs)
    else if c = '[' then (mkT .LBracket "[" L C, consume st cs)
    else if c = ']' then (mkT .RBracket "]" L C, consume st cs)
    else if c = ',' then (mkT .Comma "," L C, consume st cs)
    else if c = ';' then (mkT .Semi ";" L C, consume st cs)
    else if c = '.' then (mkT .Dot "." L C, consume st cs)
    else if c = '!' && cs.head? = some '=' then (mkT .Ne "!=" L C, consume st cs.tail)
    else if c = '=' && cs.head? = some '=' then (mkT .Eq "==" L C, consume st cs.tail)
    else if c = '<' && cs.head? = some '=' then (mkT .Le "<=" L C, consume st cs.tail)
    else if c = '>' && cs.head? = some '=' then (mkT .Ge ">=" L C, consume st cs.tail)
    else if c = '&' && cs.head? = some '&' then (mkT .AndAnd "&&" L C, consume st cs.tail)
    else if c = '|' && cs.head? = some '|' then (mkT .OrOr "||" L C, consume st cs.tail)
    else if c = '=' then (mkT .Assign "=" L C, consume st cs)
    else if c = '<' then (mkT .Lt "<" L C, consume st cs)
    else if c = '>' then (mkT .Gt ">" L C, consume st cs)
    else if c = '+' then (mkT .Plus "+" L C, consume st cs)
    else if c = '-' then (mkT .Minus "-" L C, consume st cs)
    else if c = '*' then (mkT .Star "*" L C, consume st cs)
    else if c = '/' then (mkT .Slash "/" L C, consume st cs)
    else if c = '%' then (mkT .Percent "%" L C, consume st cs)
    else if c = '!' then (mkT .Bang "!" L C, consume st cs)
    else if c = '~' then (mkT .Tilde "~" L C, consume st cs)
    else if c = '"' then lexString (consume st cs) L C
    else if isDigitC c then lexNumberOrDuration st L C
    else if isIdentStart c || c = '@' || c = '#' then
      let r := spanP (fun d => isIdentC d || d = ':' || d = '@' || d = '#') cs
      let id : String := ⟨c :: r.1⟩
      let k := kw id
      if k = .Ident ∧ (id = "true" ∨ id = "false") then
        ({ kind := .Bool, lex := id, line := L, col := C, bval := id = "true" },
          consume st r.2)
      else (mkT k id L C, consume st r.2)
    else (mkT .Error ("unexpected char " ++ ⟨[c]⟩) L C, st)

/-- Pull tokens until the `End` or first `Error` token (inclusive);
each continuing token consumes at least one character, so
`length + 1` fuel never runs out. -/
def tokenizeGo : Nat → LexState → List Token
  | 0, _ => []
  | fuel + 1, st =>
    let r := nextToken st
    if r.1.kind = .End then [r.1]
    else if r.1.kind = .Error then [r.1]
    else r.1 :: tokenizeGo fuel r.2

def tokenize (s : String) : List Token :=
  tokenizeGo (s.toList.length + 1) ⟨s.toList, 1, 1⟩

end Lexer

/-! ## AST -/

inductive NK where
  | Program | Module | Import | Export | Func | Worker | Param | Block | Let
  | If | Loop | Return | Print | Label | Goto
  | Init | Lease | Sublease | Release | Load | Call | Exit | Render | Input | Output
  | Send | Recv | Spawn | Join | Stamp | Expire | Sleep | Yield | Error
  | Bin | Un | CallExpr | Var | ConstI | ConstStr | ConstBool
  deriving DecidableEq, Repr

/-- The C++ `Node`: a kind tag, source position, and the generic
fields `s1`, `s2`, `i64`, `du_ns`, `b`, `xs`. -/
inductive Node where
  | mk : NK → Nat → Nat → String → String → Int → Nat → Bool → List Node → Node
  deriving Repr

def Node.k : Node → NK | .mk k _ _ _ _ _ _ _ _ => k
def Node.line : Node → Nat | .mk _ L _ _ _ _ _ _ _ => L
def Node.col : Node → Nat | .mk _ _ C _ _ _ _ _ _ => C
def Node.s1 : Node → String | .mk _ _ _ s _ _ _ _ _ => s
def Node.s2 : Node → String | .mk _ _ _ _ s _ _ _ _ => s
def Node.i64 : Node → Int | .mk _ _ _ _ _ i _ _ _ => i
def Node.du : Node → Nat | .mk _ _ _ _ _ _ d _ _ => d
def Node.b : Node → Bool | .mk _ _ _ _ _ _ _ b _ => b
def Node.xs : Node → List Node | .mk _ _ _ _ _ _ _ _ xs => xs

/-- The `N(k, L, C)` helper (all generic fields defaulted). -/
def N (k : NK) (L C : Nat) : Node := .mk k L C "" "" 0 0 false []

def Node.withS1 : Node → String → Node
  | .mk k L C _ s2 i d b xs, s => .mk k L C s s2 i d b xs

/-! ## Parser -/

namespace Parser

open Lexer

/-- A thrown `parse error @L:C: msg (tok=lex)`. -/
structure PErr where
  line : Nat
  col : Nat
  msg : String
  tok : String
  deriving DecidableEq, Repr

/-- Parser cursor: the head, when present, is the current token `t`;
past the end the C++ lexer keeps yielding `End`. -/
abbrev PState := List Token

def cur : PState → Token
  | [] => mkT .End "" 0 0
  | t :: _ => t

def perr (st : PState) (m : String) : PErr :=
  ⟨(cur st).line, (cur st).col, m, (cur st).lex⟩

/-- The fuel-exhaustion marker; its message coincides with no parse
error the source can raise. -/
def fuelErr : PErr := ⟨0, 0, "fuel exhausted", ""⟩

/-- `adv()`: pull the next token; an `Error` token is immediately
rethrown as a parse error carrying its message. -/
def adv (st : PState) : Except PErr PState :=
  let st' := st.tail
  if (cur st').kind = .Error then .error (perr st' (cur st').lex) else .ok st'

/-- The constructor `Parser(s)` performs the first `adv()`: the
freshly lexed head may itself be an `Error` token. -/
def initP (ts : List Token) : Except PErr PState :=
  if (cur ts).kind = .Error then .error (perr ts (cur ts).lex) else .ok ts

def eat (st : PState) (k : Tok) : Except PErr (Bool × PState) :=
  if (cur st).kind = k then do
    let st' ← adv st
    .ok (true, st')
  else .ok (false, st)

def expect (st : PState) (k : Tok) (what : String) : Except PErr PState := do
  let r ← eat st k
  if r.1 then .ok r.2 else .error (perr r.2 ("expected " ++ what))

/-- `Parser::prec` — note that every non-operator token (including
`End`, `Semi`, `RParen`, …) gets precedence 0. -/
def prec (st : PState) : Nat :=
  match (cur st).kind with
  | .OrOr => 1
  | .AndAnd => 2
  | .Eq | .Ne => 3
  | .Lt | .Gt | .Le | .Ge => 4
  | .Plus | .Minus => 5
  | .Star | .Slash | .Percent => 6
  | _ => 0

mutual

/-- `Parser::parse`: the top-level loop. -/
def parseTop : Nat → PState → Except PErr (Node × PState)
  | 0, _ => .error fuelErr
  | fuel + 1, st => do
    let r ← parseTopItems fuel st []
    .ok (Node.mk .Program 0 0 "" "" 0 0 false r.1, r.2)

def parseTopItems : Nat → PState → List Node → Except PErr (List Node × PState)
  | 0, _, _ => .error fuelErr
  | fuel + 1, st, acc =>
    if (cur st).kind = .End then .ok (acc, st)
    else if (cur st).kind = .AtMain ∨ (cur st).kind = .AtEntryPoint then do
      let r ← parseEntry fuel st
      parseTopItems fuel r.2 (acc ++ [r.1])
    else if (cur st).kind = .Module then do
      let r ← parseModule fuel st
      parseTopItems fuel r.2 (acc ++ [r.1])
    else if (cur st).kind = .Import then do
      let r ← parseImport fuel st
      parseTopItems fuel r.2 (acc ++ [r.1])
    else if (cur st).kind = .Export then do
      let r ← parseExport fuel st
      parseTopItems fuel r.2 (acc ++ [r.1])
    else if (cur st).kind = .Function then do
      let r ← parseFunc fuel .Func st
      parseTopItems fuel r.2 (acc ++ [r.1])
    else if (cur st).kind = .Worker then do
      let r ← parseFunc fuel .Worker st
      parseTopItems fuel r.2 (acc ++ [r.1])
    else if (cur st).kind = .Let then do
      let r ← parseLet fuel st
      parseTopItems fuel r.2 (acc ++ [r.1])
    else .error (perr st "unexpected top-level construct")

def parseEntry : Nat → PState → Except PErr (Node × PState)
  | 0, _ => .error fuelErr
  | fuel + 1, st => do
    let isMain := (cur st).kind = .AtMain
    let st ← adv st
    let r ← parseBlock fuel st
    .ok (r.1.withS1 (if isMain then "@main" else "@entry_point"), r.2)

/-- `Parser::parseModule`: after consuming `@module` and the string, a
`Module` node is built with a placeholder path and then discarded by
the unconditional internal error, exactly as in the source. -/
def parseModule : Nat → PState → Except PErr (Node × PState)
  | 0, _ => .error fuelErr
  | _ + 1, st =>
    match adv st with
    | .error e => .error e
    | .ok st =>
      match expect st .String "\"path\"" with
      | .error e => .error e
      | .ok st =>
        let _n := (N .Module (cur st).line (cur st).col).withS1 ""
        .error (perr st "internal: module path capture not implemented")

def parseImport : Nat → PState → Except PErr (Node × PState)
  | 0, _ => .error fuelErr
  | _ + 1, st => do
    let L := (cur st).line
    let C := (cur st).col
    let st ← adv st
    if (cur st).kind ≠ .String then .error (perr st "expected string path after @import")
    else do
      let path := (cur st).lex
      let st ← adv st
      if (cur st).kind = .Ident ∧ (cur st).lex = "as" then do
        let st ← adv st
        if (cur st).kind ≠ .Ident then .error (perr st "expected alias ident")
        else do
          let alias' := (cur st).lex
          let st ← adv st
          .ok (Node.mk .Import L C path alias' 0 0 false [], st)
      else .ok (Node.mk .Import L C path "" 0 0 false [], st)

def parseExport : Nat → PState → Except PErr (Node × PState)
  | 0, _ => .error fuelErr
  | _ + 1, st => do
    let L := (cur st).line
    let C := (cur st).col
    let st ← adv st
    if (cur st).kind ≠ .Ident then .error (perr st "expected exported symbol like $name")
    else do
      let sym := (cur st).lex
      let st ← adv st
      .ok (Node.mk .Export L C sym "" 0 0 false [], st)

def parseFunc : Nat → NK → PState → Except PErr (Node × PState)
  | 0, _, _ => .error fuelErr
  | fuel + 1, kind, st => do
    let L := (cur st).line
    let C := (cur st).col
    let st ← adv st
    if (cur st).kind ≠ .Ident then .error (perr st "expected $name")
    else do
      let name := (cur st).lex
      let st ← adv st
      let st ← expect st .LParen "("
      let r ←
        if (cur st).kind ≠ .RParen then parseParams fuel L C st []
        else .ok (([] : List Node), st)
      let st ← expect r.2 .RParen ")"
      let er ← eat st .Colon
      let rr ←
        if er.1 then do
          let tr ← readType fuel er.2
          .ok (tr.1, tr.2)
        else .ok ("", er.2)
      let br ← parseBlock fuel rr.2
      .ok (Node.mk kind L C name rr.1 0 0 false (r.1 ++ [br.1]), br.2)

/-- The parameter loop of `parseFunc` (positions `L`, `C` of the
`function` keyword are reused for every `Param`, as in the source). -/
def parseParams : Nat → Nat → Nat → PState → List Node →
    Except PErr (List Node × PState)
  | 0, _, _, _, _ => .error fuelErr
  | fuel + 1, L, C, st, acc => do
    if (cur st).kind ≠ .Ident then .error (perr st "expected param name")
    else do
      let pn := (cur st).lex
      let st ← adv st
      let er ← eat st .Colon
      let tr ←
        if er.1 then do
          let t ← readType fuel er.2
          .ok (t.1, t.2)
        else .ok ("", er.2)
      let p := Node.mk .Param L C pn tr.1 0 0 false []
      let cr ← eat tr.2 .Comma
      if cr.1 then parseParams fuel L C cr.2 (acc ++ [p])
      else .ok (acc ++ [p], cr.2)

def readType : Nat → PState → Except PErr (String × PState)
  | 0, _ => .error fuelErr
  | fuel + 1, st => do
    if (cur st).kind ≠ .Ident then .error (perr st "expected type ident")
    else do
      let base := (cur st).lex
      let st ← adv st
      let lr ← eat st .Lt
      let gr ←
        if lr.1 then do
          let inner ← readType fuel lr.2
          let st2 ← expect inner.2 .Gt ">"
          .ok (base ++ "<" ++ inner.1 ++ ">", st2)
        else .ok (base, lr.2)
      let br ← eat gr.2 .LBracket
      if br.1 then
        if (cur br.2).kind ≠ .Number then .error (perr br.2 "expected array size")
        else do
          let n := (cur br.2).ival
          let st3 ← adv br.2
          let st4 ← expect st3 .RBracket "]"
          .ok (gr.1 ++ "[" ++ toString n ++ "]", st4)
      else .ok (gr.1, br.2)

def parseBlock : Nat → PState → Except PErr (Node × PState)
  | 0, _ => .error fuelErr
  | fuel + 1, st => do
    let st ← expect st .LBrace "\x7b"
    let L := (cur st).line
    let C := (cur st).col
    let r ← parseBlockItems fuel st []
    let st ← adv r.2
    .ok (Node.mk .Block L C "" "" 0 0 false r.1, st)

def parseBlockItems : Nat → PState → List Node → Except PErr (List Node × PState)
  | 0, _, _ => .error fuelErr
  | fuel + 1, st, acc =>
    if (cur st).kind = .RBrace then .ok (acc, st)
    else do
      let r ← parseStmt fuel st
      parseBlockItems fuel r.2 (acc ++ [r.1])

def parseLet : Nat → PState → Except PErr (Node × PState)
  | 0, _ => .error fuelErr
  | fuel + 1, st => do
    let L := (cur st).line
    let C := (cur st).col
    let st ← adv st
    if (cur st).kind ≠ .Ident then .error (perr st "expected $name")
    else do
      let name := (cur st).lex
      let st ← adv st
      let st ← expect st .Colon ":"
      let tr ← readType fuel st
      let ar ← eat tr.2 .Assign
      let ir ←
        if ar.1 then do
          let e ← parseExpr fuel ar.2
          .ok (some e.1, e.2)
        else .ok (none, ar.2)
      let st ← expect ir.2 .Semi ";"
      let xs := match ir.1 with | some e => [e] | none => []
      .ok (Node.mk .Let L C name tr.1 0 0 false xs, st)

def parseStmt : Nat → PState → Except PErr (Node × PState)
  | 0, _ => .error fuelErr
  | fuel + 1, st => do
    let t := cur st
    if t.kind = .Label then do
      let st ← adv st
      .ok (Node.mk .Label t.line t.col t.lex "" 0 0 false [], st)
    else if t.kind = .Goto then do
      let st ← adv st
      if (cur st).kind ≠ .Label then .error (perr st "expected :label")
      else do
        let name := (cur st).lex
        let st ← adv st
        let st ← expect st .Semi ";"
        .ok (Node.mk .Goto t.line t.col name "" 0 0 false [], st)
    else match t.kind with
    | .HashInit => parseOp1 fuel .Init false st
    | .HashLease => parseOp1 fuel .Lease false st
    | .HashSublease => parseOp1 fuel .Sublease false st
    | .HashRelease => parseOp1 fuel .Release false st
    | .HashLoad => parseLoad fuel st
    | .HashCall => parseCall fuel st
    | .HashExit => do
      let st ← adv st
      .ok (N .Exit t.line t.col, st)
    | .HashRender => parseOp1 fuel .Render false st
    | .HashInput => parseOp1 fuel .Input false st
    | .HashOutput => parseOp1 fuel .Output false st
    | .HashSend => parseOp2 fuel .Send st
    | .HashRecv => parseOp2 fuel .Recv st
    | .HashSpawn => parseSpawn fuel st
    | .HashJoin => parseOp1 fuel .Join false st
    | .HashStamp => parseStamp fuel st
    | .HashExpire => parseExpire fuel st
    | .HashSleep => parseSleep fuel st
    | .HashYield => do
      let st ← adv st
      .ok (N .Yield t.line t.col, st)
    | .HashError => parseErrorStmt fuel st
    | .HashIf => parseIfHash fuel st
    | .HashLoop => parseLoopHash fuel st
    | .If => parseIfLong fuel st
    | .Loop => parseLoopLong fuel st
    | .Let => parseLet fuel st
    | .Return => do
      let st ← adv st
      let er ←
        if (cur st).kind ≠ .Semi then do
          let e ← parseExpr fuel st
          .ok (some e.1, e.2)
        else .ok (none, st)
      let st ← expect er.2 .Semi ";"
      let xs := match er.1 with | some e => [e] | none => []
      .ok (Node.mk .Return t.line t.col "" "" 0 0 false xs, st)
    | .Print => do
      let st ← adv st
      let e ← parseExpr fuel st
      let r ← parseMoreExprs fuel e.2 [e.1]
      let st ← expect r.2 .Semi ";"
      .ok (Node.mk .Print t.line t.col "" "" 0 0 false r.1, st)
    | .Initialize => parseOp1 fuel .Init true st
    | .AssignValue => do
      let st ← adv st
      if ¬((cur st).kind = .Ident ∧ (cur st).lex = "value") then
        .error (perr st "expected value")
      else do
        let st ← adv st
        let vr ← parseExpr fuel st
        if ¬((cur vr.2).kind = .Ident ∧ (cur vr.2).lex = "to") then
          .error (perr vr.2 "expected to")
        else do
          let st ← adv vr.2
          if (cur st).kind ≠ .Ident then .error (perr st "expected capsule name")
          else do
            let cap := (cur st).lex
            let st ← adv st
            .ok (Node.mk .Load t.line t.col cap "" 0 0 false [vr.1], st)
    | .InvokeFunction => do
      let st ← adv st
      if ¬((cur st).kind = .Ident ∧ (cur st).lex = "function") then
        .error (perr st "expected function")
      else do
        let st ← adv st
        if (cur st).kind ≠ .Ident then .error (perr st "expected function name")
        else do
          let fn := (cur st).lex
          let st ← adv st
          if ¬((cur st).kind = .Ident ∧ (cur st).lex = "with") then
            .error (perr st "expected with")
          else do
            let st ← adv st
            let ar ← parseExpr fuel st
            .ok (Node.mk .Call (cur ar.2).line (cur ar.2).col fn "" 0 0 false [ar.1],
              ar.2)
    | .TerminateExecution => do
      let st ← adv st
      .ok (N .Exit t.line t.col, st)
    | .LBrace => parseBlock fuel st
    | _ => do
      let e ← parseExpr fuel st
      let st ← expect e.2 .Semi ";"
      .ok (e.1, st)

/-- `parseOp1` (the `longForm` flag is taken but never used, as in the
source — `initialize` consumes only one following identifier). -/
def parseOp1 : Nat → NK → Bool → PState → Except PErr (Node × PState)
  | 0, _, _, _ => .error fuelErr
  | _ + 1, kind, _longForm, st => do
    let L := (cur st).line
    let C := (cur st).col
    let st ← adv st
    if (cur st).kind ≠ .Ident then .error (perr st "expected $capsule")
    else do
      let a := (cur st).lex
      let st ← adv st
      .ok (Node.mk kind L C a "" 0 0 false [], st)

def parseOp2 : Nat → NK → PState → Except PErr (Node × PState)
  | 0, _, _ => .error fuelErr
  | _ + 1, kind, st => do
    let L := (cur st).line
    let C := (cur st).col
    let st ← adv st
    if (cur st).kind ≠ .Ident then .error (perr st "expected first capsule")
    else do
      let a := (cur st).lex
      let st ← adv st
      let st ← expect st .Comma ","
      if (cur st).kind ≠ .Ident then .error (perr st "expected second capsule")
      else do
        let b := (cur st).lex
        let st ← adv st
        .ok (Node.mk kind L C a b 0 0 false [], st)

def parseLoad : Nat → PState → Except PErr (Node × PState)
  | 0, _ => .error fuelErr
  | fuel + 1, st => do
    let L := (cur st).line
    let C := (cur st).col
    let st ← adv st
    if (cur st).kind ≠ .Ident then .error (perr st "expected $capsule")
    else do
      let cap := (cur st).lex
      let st ← adv st
      let st ← expect st .Comma ","
      let vr ← parseExpr fuel st
      .ok (Node.mk .Load L C cap "" 0 0 false [vr.1], vr.2)

def parseCall : Nat → PState → Except PErr (Node × PState)
  | 0, _ => .error fuelErr
  | fuel + 1, st => do
    let L := (cur st).line
    let C := (cur st).col
    let st ← adv st
    if (cur st).kind ≠ .Ident then .error (perr st "expected function name")
    else do
      let fn := (cur st).lex
      let st ← adv st
      let st ← expect st .Comma ","
      let ar ← parseExpr fuel st
      .ok (Node.mk .Call L C fn "" 0 0 false [ar.1], ar.2)

def parseSpawn : Nat → PState → Except PErr (Node × PState)
  | 0, _ => .error fuelErr
  | fuel + 1, st => do
    let L := (cur st).line
    let C := (cur st).col
    let st ← adv st
    if (cur st).kind ≠ .Ident then .error (perr st "expected worker name")
    else do
      let wk := (cur st).lex
      let st ← adv st
      let cr ← eat st .Comma
      let r ←
        if cr.1 then do
          let e ← parseExpr fuel cr.2
          parseMoreExprs fuel e.2 [e.1]
        else .ok (([] : List Node), cr.2)
      .ok (Node.mk .Spawn L C wk "" 0 0 false r.1, r.2)

/-- `while (eat(Comma)) xs.push_back(parseExpr());` -/
def parseMoreExprs : Nat → PState → List Node → Except PErr (List Node × PState)
  | 0, _, _ => .error fuelErr
  | fuel + 1, st, acc => do
    let cr ← eat st .Comma
    if cr.1 then do
      let e ← parseExpr fuel cr.2
      parseMoreExprs fuel e.2 (acc ++ [e.1])
    else .ok (acc, cr.2)

def parseStamp : Nat → PState → Except PErr (Node × PState)
  | 0, _ => .error fuelErr
  | _ + 1, st => do
    let L := (cur st).line
    let C := (cur st).col
    let st ← adv st
    if (cur st).kind ≠ .Ident then .error (perr st "expected $capsule")
    else do
      let cap := (cur st).lex
      let st ← adv st
      let st ← expect st .Comma ","
      if ¬((cur st).kind = .Bool ∨ (cur st).kind = .Number) then
        .error (perr st "expected bool or number stamp")
      else if (cur st).kind = .Bool then do
        let b := (cur st).bval
        let st ← adv st
        .ok (Node.mk .Stamp L C cap "" 0 0 b [], st)
      else do
        let v := (cur st).ival
        let st ← adv st
        .ok (Node.mk .Stamp L C cap "" v 0 false [], st)

def parseExpire : Nat → PState → Except PErr (Node × PState)
  | 0, _ => .error fuelErr
  | _ + 1, st => do
    let L := (cur st).line
    let C := (cur st).col
    let st ← adv st
    if (cur st).kind ≠ .Ident then .error (perr st "expected $capsule")
    else do
      let cap := (cur st).lex
      let st ← adv st
      let st ← expect st .Comma ","
      if (cur st).kind ≠ .Duration then
        .error (perr st "expected duration literal (e.g., 5ms)")
      else do
        let d := (cur st).du
        let st ← adv st
        .ok (Node.mk .Expire L C cap "" 0 d false [], st)

def parseSleep : Nat → PState → Except PErr (Node × PState)
  | 0, _ => .error fuelErr
  | _ + 1, st => do
    let L := (cur st).line
    let C := (cur st).col
    let st ← adv st
    if (cur st).kind ≠ .Duration then .error (perr st "expected duration")
    else do
      let d := (cur st).du
      let st ← adv st
      .ok (Node.mk .Sleep L C "" "" 0 d false [], st)

def parseErrorStmt : Nat → PState → Except PErr (Node × PState)
  | 0, _ => .error fuelErr
  | _ + 1, st => do
    let L := (cur st).line
    let C := (cur st).col
    let st ← adv st
    if (cur st).kind ≠ .Ident then .error (perr st "expected $capsule")
    else do
      let cap := (cur st).lex
      let st ← adv st
      let st ← expect st .Comma ","
      if (cur st).kind ≠ .Number then .error (perr st "expected code")
      else do
        let code := (cur st).ival
        let st ← adv st
        let st ← expect st .Comma ","
        if (cur st).kind ≠ .String then .error (perr st "expected message")
        else do
          let msg := (cur st).lex
          let st ← adv st
          .ok (Node.mk .Error L C cap msg code 0 false [], st)

def parseIfHash : Nat → PState → Except PErr (Node × PState)
  | 0, _ => .error fuelErr
  | fuel + 1, st => do
    let L := (cur st).line
    let C := (cur st).col
    let st ← adv st
    let st ← expect st .LParen "("
    let cr ← parseExpr fuel st
    let st ← expect cr.2 .RParen ")"
    let tr ← parseBlock fuel st
    let er ← eat tr.2 .HashElse
    let br ←
      if er.1 then do
        let e ← parseBlock fuel er.2
        .ok (some e.1, e.2)
      else .ok (none, er.2)
    let fr ← eat br.2 .HashEndIf
    if ¬fr.1 then .error (perr fr.2 "expected #endif")
    else
      let xs := match br.1 with
        | some e => [cr.1, tr.1, e]
        | none => [cr.1, tr.1]
      .ok (Node.mk .If L C "" "" 0 0 false xs, fr.2)

def parseIfLong : Nat → PState → Except PErr (Node × PState)
  | 0, _ => .error fuelErr
  | fuel + 1, st => do
    let L := (cur st).line
    let C := (cur st).col
    let st ← adv st
    let st ← expect st .LParen "("
    let cr ← parseExpr fuel st
    let st ← expect cr.2 .RParen ")"
    let tr ← parseBlock fuel st
    let er ← eat tr.2 .Else
    let br ←
      if er.1 then do
        let e ← parseBlock fuel er.2
        .ok (some e.1, e.2)
      else .ok (none, er.2)
    let xs := match br.1 with
      | some e => [cr.1, tr.1, e]
      | none => [cr.1, tr.1]
    .ok (Node.mk .If L C "" "" 0 0 false xs, br.2)

def parseLoopHash : Nat → PState → Except PErr (Node × PState)
  | 0, _ => .error fuelErr
  | fuel + 1, st => do
    let L := (cur st).line
    let C := (cur st).col
    let st ← adv st
    let st ← expect st .LParen "("
    let cr ← parseExpr fuel st
    let st ← expect cr.2 .RParen ")"
    let br ← parseBlock fuel st
    .ok (Node.mk .Loop L C "" "" 0 0 false [cr.1, br.1], br.2)

def parseLoopLong : Nat → PState → Except PErr (Node × PState)
  | 0, _ => .error fuelErr
  | fuel + 1, st => do
    let L := (cur st).line
    let C := (cur st).col
    let st ← adv st
    let st ← expect st .LParen "("
    let cr ← parseExpr fuel st
    let st ← expect cr.2 .RParen ")"
    let br ← parseBlock fuel st
    .ok (Node.mk .Loop L C "" "" 0 0 false [cr.1, br.1], br.2)

def parseExpr : Nat → PState → Except PErr (Node × PState)
  | 0, _ => .error fuelErr
  | fuel + 1, st => do
    let u ← parseUnary fuel st
    parseBin fuel 0 u.1 u.2

def parseUnary : Nat → PState → Except PErr (Node × PState)
  | 0, _ => .error fuelErr
  | fuel + 1, st =>
    if (cur st).kind = .Bang ∨ (cur st).kind = .Minus ∨ (cur st).kind = .Tilde then do
      let op := cur st
      let st ← adv st
      let r ← parseUnary fuel st
      .ok (Node.mk .Un op.line op.col op.lex "" 0 0 false [r.1], r.2)
    else parsePrimary fuel st

def parsePrimary : Nat → PState → Except PErr (Node × PState)
  | 0, _ => .error fuelErr
  | fuel + 1, st => do
    let t := cur st
    if t.kind = .Number then do
      let st ← adv st
      .ok (Node.mk .ConstI t.line t.col "" "" t.ival 0 false [], st)
    else if t.kind = .String then do
      let st ← adv st
      .ok (Node.mk .ConstStr t.line t.col t.lex "" 0 0 false [], st)
    else if t.kind = .Bool then do
      let st ← adv st
      .ok (Node.mk .ConstBool t.line t.col "" "" 0 0 t.bval [], st)
    else if t.kind = .Ident then do
      let id := t.lex
      let st ← adv st
      let pr ← eat st .LParen
      if pr.1 then do
        let ar ←
          if (cur pr.2).kind ≠ .RParen then do
            let e ← parseExpr fuel pr.2
            parseMoreExprs fuel e.2 [e.1]
          else .ok (([] : List Node), pr.2)
        let st ← expect ar.2 .RParen ")"
        .ok (Node.mk .CallExpr (cur st).line (cur st).col id "" 0 0 false ar.1, st)
      else .ok (Node.mk .Var (cur pr.2).line (cur pr.2).col id "" 0 0 false [], pr.2)
    else do
      let pr ← eat st .LParen
      if pr.1 then do
        let e ← parseExpr fuel pr.2
        let st ← expect e.2 .RParen ")"
        .ok (e.1, st)
      else .error (perr pr.2 "unexpected expression")

/-- `Parser::parseBin`: the Pratt loop. Because `prec` is 0 for
non-operator tokens and the loop only stops when `prec < minPrec`, a
top-level call (`minPrec = 0`) can only leave the loop by raising an
error further down. -/
def parseBin : Nat → Nat → Node → PState → Except PErr (Node × PState)
  | 0, _, _, _ => .error fuelErr
  | fuel + 1, minPrec, lhs, st => do
    let p := prec st
    if p < minPrec then .ok (lhs, st)
    else do
      let op := cur st
      let st ← adv st
      let ur ← parseUnary fuel st
      let p2 := prec ur.2
      let rr ←
        if p < p2 then parseBin fuel (p + 1) ur.1 ur.2
        else .ok (ur.1, ur.2)
      parseBin fuel minPrec
        (Node.mk .Bin op.line op.col op.lex "" 0 0 false [lhs, rr.1]) rr.2

end

/-- Fuel that is ample for every program considered in this file; real
parse errors are reported long before it could run out (and the
distinguished `fuelErr` would make any such exhaustion visible). -/
def pfuel : Nat := 1000

/-- Lex and parse a source string, as `main` does. -/
def parseSource (src : String) : Except PErr (Node × PState) := do
  let st ← initP (Lexer.tokenize src)
  parseTop pfuel st

end Parser

/-! ## Star-Code validation -/

structure Diagnostic where
  kind : String
  msg : String
  line : Nat
  col : Nat
  deriving DecidableEq, Repr

namespace StarCode

structure ScSt where
  labels : List String
  gotos : List (Nat × Nat × String)
  diags : List Diagnostic
  deriving Repr

mutual

/-- The `walk` lambda of `StarCode::run`: collect label definitions and
goto sites, and warn on literal non-bool `if`/`loop` conditions. -/
def walkN (n : Node) (s : ScSt) : ScSt :=
  match n with
  | .mk k L C s1 _ _ _ _ xs =>
    let s := if k = .Label then { s with labels := s1 :: s.labels } else s
    let s := if k = .Goto then { s with gotos := s.gotos ++ [(L, C, s1)] } else s
    let s :=
      if k = .If ∨ k = .Loop then
        match xs with
        | cond :: _ =>
          if cond.k = .ConstI ∨ cond.k = .ConstStr then
            { s with diags := s.diags ++
                [⟨"warning", "non-bool literal used as condition", cond.line, cond.col⟩] }
          else s
        | [] => s
      else s
    walkL xs s

def walkL (l : List Node) (s : ScSt) : ScSt :=
  match l with
  | [] => s
  | n :: r => walkL r (walkN n s)

end

mutual

/-- The `checkDur` lambda of `StarCode::run`. -/
def checkDurN (n : Node) (d : List Diagnostic) : List Diagnostic :=
  match n with
  | .mk k L C _ _ _ du _ xs =>
    let d :=
      if (k = .Expire ∨ k = .Sleep) ∧ du > 9000000000000000000 then
        d ++ [⟨"warning", "duration too large", L, C⟩]
      else d
    checkDurL xs d

def checkDurL (l : List Node) (d : List Diagnostic) : List Diagnostic :=
  match l with
  | [] => d
  | n :: r => checkDurL r (checkDurN n d)

end

/-- `StarCode::run`: the representative check set of the source —
undefined goto targets (error), literal non-bool conditions (warning)
and oversized durations (warning). -/
def run (prog : Node) : List Diagnostic :=
  let s := walkN prog ⟨[], [], []⟩
  let d := s.gotos.foldl
    (fun acc g =>
      if s.labels.contains g.2.2 then acc
      else acc ++ [⟨"error", "goto to undefined label: " ++ g.2.2, g.1, g.2.1⟩])
    s.diags
  checkDurN prog d

end StarCode

/-! ## IR emitter -/

namespace Emitter

/-- 4-byte little-endian encoding (`u32le`). -/
def le32 (v : Nat) : List Nat :=
  [v % 256, v / 256 % 256, v / 65536 % 256, v / 16777216 % 256]

/-- `rd_u32le`. -/
def rd32 (b0 b1 b2 b3 : Nat) : Nat :=
  b0 + 256 * b1 + 65536 * b2 + 16777216 * b3

/-- The `(uint32_t)` view of a signed 64-bit value. -/
def u32ofI64 (i : Int) : Nat := (i % (2 ^ 32 : Int)).toNat

/-- `op_of` (binary operator byte). -/
def op_of (s : String) : Nat :=
  if s = "||" then 1 else if s = "&&" then 2 else if s = "==" then 3
  else if s = "!=" then 4 else if s = "<" then 5 else if s = ">" then 6
  else if s = "<=" then 7 else if s = ">=" then 8 else if s = "+" then 9
  else if s = "-" then 10 else if s = "*" then 11 else if s = "/" then 12
  else if s = "%" then 13 else 0

/-- Emitter state: text/rodata buffers plus the label, relocation and
function-symbol tables. -/
structure EmSt where
  text : List Nat
  rodata : List Nat
  labels : List (String × Nat)
  relocs : List (Nat × String)
  syms : List (String × Nat)
  deriving DecidableEq, Repr

def emptyEm : EmSt := ⟨[], [], [], [], []⟩

def emit8 (b : Nat) (st : EmSt) : EmSt := { st with text := st.text ++ [b] }

/-- `emit32`: the argument undergoes the C++ conversion to `uint32_t`
at the call boundary, hence the `% 2 ^ 32`. -/
def emit32 (v : Nat) (st : EmSt) : EmSt := { st with text := st.text ++ le32 (v % 2 ^ 32) }

/-- `unordered_map` `operator[]` assignment: overwrite or append. -/
def assocSet (l : List (String × Nat)) (k : String) (v : Nat) : List (String × Nat) :=
  match l with
  | [] => [(k, v)]
  | (k', v') :: r => if k' = k then (k, v) :: r else (k', v') :: assocSet r k v

def mark (name : String) (st : EmSt) : EmSt :=
  { st with labels := assocSet st.labels name st.text.length }

def relocHere (name : String) (st : EmSt) : EmSt :=
  emit32 0xFFFFFFFF { st with relocs := st.relocs ++ [(st.text.length, name)] }

/-- `memcpy(text.data() + pos, &v, 4)` with a little-endian `uint32`. -/
def patch32 (pos v : Nat) (st : EmSt) : EmSt :=
  { st with text := st.text.take pos ++ le32 (v % 2 ^ 32) ++ st.text.drop (pos + 4) }

/-- The ASCII bytes of a string (all sources considered are ASCII). -/
def strBytes (s : String) : List Nat := s.toList.map Char.toNat

mutual

/-- `Emitter::emitExpr`, with `std::hash<std::string>` abstracted as
the parameter `h` (its value reaches `emit32` through the `size_t` →
`uint32_t` conversion). Note: operands of `&&`/`||` are both emitted
unconditionally — the `Bin` case is a plain post-order emission with
no `JZ`/`JNZ`. -/
def emitExpr (h : String → Nat) (n : Node) (st : EmSt) : EmSt :=
  match n with
  | .mk .ConstI _ _ _ _ i _ _ _ => emit32 (u32ofI64 i) (emit8 0x20 st)
  | .mk .ConstBool _ _ _ _ _ _ b _ => emit32 (if b then 1 else 0) (emit8 0x20 st)
  | .mk .ConstStr _ _ s1 _ _ _ _ _ =>
    let off := st.rodata.length
    let st := { st with rodata := st.rodata ++ strBytes s1 ++ [0] }
    emit32 off (emit8 0x20 st)
  | .mk .Var _ _ s1 _ _ _ _ _ => emit32 (h s1) (emit8 0x21 st)
  | .mk .Un _ _ s1 _ _ _ _ xs =>
    (match xs with
    | e :: _ =>
      let st := emitExpr h e st
      emit8 (if s1 = "!" then 1 else if s1 = "-" then 2 else 3) (emit8 0x22 st)
    | [] => st)
  | .mk .Bin _ _ s1 _ _ _ _ xs =>
    (match xs with
    | l :: r :: _ =>
      let st := emitExpr h l st
      let st := emitExpr h r st
      emit8 (op_of s1) (emit8 0x23 st)
    | _ => st)
  | .mk .CallExpr _ _ s1 _ _ _ _ xs =>
    let st := emitExprList h xs st
    relocHere s1 (emit8 0x06 st)
  | _ => st

def emitExprList (h : String → Nat) (l : List Node) (st : EmSt) : EmSt :=
  match l with
  | [] => st
  | e :: r => emitExprList h r (emitExpr h e st)

end

mutual

/-- `Emitter::emitStmt`. -/
def emitStmt (h : String → Nat) (n : Node) (st : EmSt) : EmSt :=
  match n with
  | .mk .Init _ _ s1 _ _ _ _ _ => emit32 (h s1) (emit8 0x01 st)
  | .mk .Lease _ _ s1 _ _ _ _ _ => emit32 (h s1) (emit8 0x02 st)
  | .mk .Sublease _ _ s1 _ _ _ _ _ => emit32 (h s1) (emit8 0x03 st)
  | .mk .Release _ _ s1 _ _ _ _ _ => emit32 (h s1) (emit8 0x04 st)
  | .mk .Load _ _ s1 _ _ _ _ xs =>
    (match xs with
    | v :: _ => emit32 (h s1) (emit8 0x05 (emitExpr h v st))
    | [] => st)
  | .mk .Call _ _ s1 _ _ _ _ xs =>
    relocHere s1 (emit8 0x06 (emitExprList h xs st))
  | .mk .Exit _ _ _ _ _ _ _ _ => emit8 0x07 st
  | .mk .Render _ _ s1 _ _ _ _ _ => emit32 (h s1) (emit8 0x08 st)
  | .mk .Input _ _ s1 _ _ _ _ _ => emit32 (h s1) (emit8 0x09 st)
  | .mk .Output _ _ s1 _ _ _ _ _ => emit32 (h s1) (emit8 0x0A st)
  | .mk .Send _ _ s1 s2 _ _ _ _ => emit32 (h s2) (emit32 (h s1) (emit8 0x0B st))
  | .mk .Recv _ _ s1 s2 _ _ _ _ => emit32 (h s2) (emit32 (h s1) (emit8 0x0C st))
  | .mk .Spawn _ _ s1 _ _ _ _ xs =>
    relocHere s1 (emit8 0x0D (emitExprList h xs st))
  | .mk .Join _ _ s1 _ _ _ _ _ => emit32 (h s1) (emit8 0x0E st)
  | .mk .Stamp _ _ s1 _ i _ _ _ => emit32 (u32ofI64 i) (emit32 (h s1) (emit8 0x0F st))
  | .mk .Expire _ _ s1 _ _ du _ _ =>
    emit32 (du % 2 ^ 32) (emit32 (h s1) (emit8 0x10 st))
  | .mk .Sleep _ _ _ _ _ du _ _ => emit32 (du % 2 ^ 32) (emit8 0x11 st)
  | .mk .Yield _ _ _ _ _ _ _ _ => emit8 0x12 st
  | .mk .Error _ _ s1 s2 i _ _ _ =>
    let st := emit32 (u32ofI64 i) (emit32 (h s1) (emit8 0x13 st))
    let off := st.rodata.length
    let st := { st with rodata := st.rodata ++ strBytes s2 ++ [0] }
    emit32 off st
  | .mk .If _ _ _ _ _ _ _ xs =>
    (match xs with
    | cond :: Node.mk _ _ _ _ _ _ _ _ thxs :: rest =>
      let st := emitExpr h cond st
      let st := emit8 0x30 st
      let jzpos := st.text.length
      let st := emit32 0xFFFFFFFF st
      let st := emitStmtList h thxs st
      (match rest with
      | Node.mk _ _ _ _ _ _ _ _ elxs :: _ =>
        let st := emit8 0x32 st
        let jmppos := st.text.length
        let st := emit32 0xFFFFFFFF st
        let st := patch32 jzpos st.text.length st
        let st := emitStmtList h elxs st
        patch32 jmppos st.text.length st
      | [] => patch32 jzpos st.text.length st)
    | _ => st)
  | .mk .Loop _ _ _ _ _ _ _ xs =>
    (match xs with
    | cond :: Node.mk _ _ _ _ _ _ _ _ bodyxs :: _ =>
      let start := st.text.length
      let st := emitExpr h cond st
      let st := emit8 0x30 st
      let jz := st.text.length
      let st := emit32 0xFFFFFFFF st
      let st := emitStmtList h bodyxs st
      let st := emit32 start (emit8 0x32 st)
      patch32 jz st.text.length st
    | _ => st)
  | .mk .Return _ _ _ _ _ _ _ xs =>
    (match xs with
    | e :: _ => emit8 0x07 (emitExpr h e st)
    | [] => emit8 0x07 st)
  | .mk .Print _ _ _ _ _ _ _ xs => emitPrintList h xs st
  | .mk .Label _ _ s1 _ _ _ _ _ => mark (":" ++ s1) st
  | .mk .Goto _ _ s1 _ _ _ _ _ => relocHere (":" ++ s1) (emit8 0x32 st)
  | .mk .Var _ _ _ _ _ _ _ _ => emitExpr h n st
  | .mk .ConstI _ _ _ _ _ _ _ _ => emitExpr h n st
  | .mk .ConstStr _ _ _ _ _ _ _ _ => emitExpr h n st
  | .mk .ConstBool _ _ _ _ _ _ _ _ => emitExpr h n st
  | .mk .Bin _ _ _ _ _ _ _ _ => emitExpr h n st
  | .mk .Un _ _ _ _ _ _ _ _ => emitExpr h n st
  | .mk .CallExpr _ _ _ _ _ _ _ _ => emitExpr h n st
  | .mk .Block _ _ _ _ _ _ _ xs => emitStmtList h xs st
  | _ => st

/-- `Emitter::emitBlock` body: statements in order. -/
def emitStmtList (h : String → Nat) (l : List Node) (st : EmSt) : EmSt :=
  match l with
  | [] => st
  | s :: r => emitStmtList h r (emitStmt h s st)

/-- The `Print` loop: each value is followed by `OP_OUTPUT 0`. -/
def emitPrintList (h : String → Nat) (l : List Node) (st : EmSt) : EmSt :=
  match l with
  | [] => st
  | e :: r => emitPrintList h r (emit32 0 (emit8 0x0A (emitExpr h e st)))

end

def emitBlock (h : String → Nat) (b : Node) (st : EmSt) : EmSt :=
  emitStmtList h b.xs st

/-- `Emitter::emitFunc` (the body is `xs.back()`; a trailing `EXIT` is
always appended). -/
def emitFunc (h : String → Nat) (f : Node) (st : EmSt) : EmSt :=
  let st := { st with syms := assocSet st.syms f.s1 st.text.length }
  let st := mark f.s1 st
  let st := match f.xs.getLast? with
    | some body => emitBlock h body st
    | none => st
  emit8 0x07 st

structure BuildResult where
  text : List Nat
  rodata : List Nat
  syms : List (String × Nat)
  deriving DecidableEq, Repr

def buildGo (h : String → Nat) (items : List Node) (st : EmSt) : EmSt :=
  match items with
  | [] => st
  | n :: r =>
    let st :=
      if n.k = .Func ∨ n.k = .Worker then emitFunc h n st
      else if n.k = .Block ∧ n.s1 = "@main" then emitBlock h n st
      else if n.k = .Block ∧ n.s1 = "@entry_point" then emitBlock h n st
      else st
    buildGo h r st

/-- The relocation loop of `Emitter::build`: label table first, then
the function table; a miss is fatal. -/
def resolveRelocs (rs : List (Nat × String)) (st : EmSt) : Except String EmSt :=
  match rs with
  | [] => .ok st
  | (pos, sym) :: r =>
    let addr? := match st.labels.lookup sym with
      | some a => some a
      | none => st.syms.lookup sym
    match addr? with
    | none => .error ("unresolved symbol: " ++ sym)
    | some addr => resolveRelocs r (patch32 pos addr st)

/-- `Emitter::build`. -/
def build (h : String → Nat) (prog : Node) : Except String BuildResult :=
  let st := buildGo h prog.xs emptyEm
  match resolveRelocs st.relocs st with
  | .error e => .error e
  | .ok st' => .ok ⟨st'.text, st'.rodata, st'.syms⟩

end Emitter

/-! ## Peephole optimizer -/

namespace Optimizer

open Emitter

/-- The constant-fold arithmetic of `Optimizer::peephole`: the two
operands are widened to signed 64-bit, combined, and truncated back to
`uint32_t`; division and modulo by zero yield 0 (the `b ? … : 0`
conditionals of the source). Signed-64 overflow of the product wraps,
which coincides with the mathematical product after the 32-bit
truncation. -/
def foldK (bop a b : Nat) : Nat :=
  let r : Int :=
    if bop = 9 then (a : Int) + (b : Int)
    else if bop = 10 then (a : Int) - (b : Int)
    else if bop = 11 then (a : Int) * (b : Int)
    else if bop = 12 then (if b = 0 then 0 else (a : Int) / (b : Int))
    else (if b = 0 then 0 else (a : Int) % (b : Int))
  (r % (2 ^ 32 : Int)).toNat

/-- The scan loop of `Optimizer::peephole`, with the remaining list
length as structural fuel (each step consumes at least one byte, so
the fuel supplied by `peephole` never runs out): a 12-byte window
`PUSHK a; PUSHK b; BIN bop` with an arithmetic `bop` is replaced by
`PUSHK (foldK bop a b)` and the scan continues after the window;
otherwise one byte is copied and the scan advances by one. -/
def peepholeGo : Nat → List Nat → List Nat
  | 0, l => l
  | _ + 1, [] => []
  | fuel + 1, c0 :: tl =>
    match tl with
    | c1 :: c2 :: c3 :: c4 :: c5 :: c6 :: c7 :: c8 :: c9 :: c10 :: c11 :: rest =>
      if c0 = 0x20 ∧ c5 = 0x20 ∧ c10 = 0x23 ∧
          (c11 = 9 ∨ c11 = 10 ∨ c11 = 11 ∨ c11 = 12 ∨ c11 = 13) then
        0x20 :: le32 (foldK c11 (rd32 c1 c2 c3 c4) (rd32 c6 c7 c8 c9)) ++
          peepholeGo fuel rest
      else c0 :: peepholeGo fuel tl
    | _ => c0 :: peepholeGo fuel tl

/-- `Optimizer::peephole`. -/
def peephole (code : List Nat) : List Nat := peepholeGo code.length code

theorem peepholeGo_nil (f : Nat) : peepholeGo f [] = [] := by
  cases f <;> rfl

/-- The scan is fuel-irrelevant once the fuel covers the list length
(each step consumes at least one byte). -/
theorem peepholeGo_eq_of_le :
    ∀ (f1 : Nat) (l : List Nat) (f2 : Nat), l.length ≤ f1 → l.length ≤ f2 →
      peepholeGo f1 l = peepholeGo f2 l := by
  intro f1
  induction f1 with
  | zero =>
    intro l f2 h1 _h2
    have hl : l = [] := List.length_eq_zero.mp (Nat.le_zero.mp h1)
    subst hl
    rw [peepholeGo_nil, peepholeGo_nil]
  | succ f ih =>
    intro l f2 h1 h2
    cases l with
    | nil => rw [peepholeGo_nil, peepholeGo_nil]
    | cons c0 tl =>
      cases f2 with
      | zero => simp at h2
      | succ g =>
        rcases tl with _ | ⟨c1, _ | ⟨c2, _ | ⟨c3, _ | ⟨c4, _ | ⟨c5, _ | ⟨c6, _ |
          ⟨c7, _ | ⟨c8, _ | ⟨c9, _ | ⟨c10, _ | ⟨c11, rest⟩⟩⟩⟩⟩⟩⟩⟩⟩⟩⟩ <;>
          simp only [peepholeGo]
        case succ.cons.succ.cons.cons.cons.cons.cons.cons.cons.cons.cons.cons.cons =>
          by_cases hc : c0 = 0x20 ∧ c5 = 0x20 ∧ c10 = 0x23 ∧
              (c11 = 9 ∨ c11 = 10 ∨ c11 = 11 ∨ c11 = 12 ∨ c11 = 13)
          · rw [if_pos hc, if_pos hc,
              ih rest g (by simp at h1; omega) (by simp at h2; omega)]
          · rw [if_neg hc, if_neg hc,
              ih _ g (by simp at h1 ⊢; omega) (by simp at h2 ⊢; omega)]
        all_goals rw [ih _ g (by simp at h1 ⊢ <;> omega) (by simp at h2 ⊢ <;> omega)]

end Optimizer

/-! ## Driver pipeline -/

/-- The artifact bundle a successful run of `main` writes out:
`a.ir.bin` (text), `a.rodata.bin`, `symbols.json` (functions), and the
accumulated Star-Code diagnostics. -/
structure Artifacts where
  text : List Nat
  rodata : List Nat
  syms : List (String × Nat)
  diags : List Diagnostic
  deriving DecidableEq, Repr

/-- The `main` pipeline: parse, validate (any error-severity
diagnostic aborts with "star-code error"), build (relocation
resolution included), peephole, then the outputs. On any error no
output file is written. -/
def compile (h : String → Nat) (src : String) : Except Parser.PErr Artifacts := do
  let r ← Parser.parseSource src
  let diags := StarCode.run r.1
  if diags.any (fun d => d.kind = "error") then
    .error ⟨0, 0, "star-code error", ""⟩
  else
    match Emitter.build h r.1 with
    | .error e => .error ⟨0, 0, e, ""⟩
    | .ok br => .ok ⟨Optimizer.peephole br.text, br.rodata, br.syms, diags⟩

/-- Modelled from the spec: the seedless 64-bit FNV-1a hash (offset
basis 14695981039346656037, multiplier 1099511628211) that the
specification mandates as the capsule-name reduction, and which is
also the `std::hash<std::string>` of the MSVC toolchain named in the
source's build line. It is absent from src/ — the reference emitter
calls the implementation-defined `std::hash` instead. -/
def fnv1a64 (s : String) : Nat :=
  s.toList.foldl (fun a c => (a ^^^ c.toNat) * 1099511628211 % 2 ^ 64)
    14695981039346656037

/-! ## Concrete programs and ASTs used by the theorems -/

/-- A sample instantiation of the implementation-defined
`std::hash<std::string>` parameter (used where a theorem's content
does not depend on the hash). -/
def hashZero : String → Nat := fun _ => 0

def srcInitShort : String := "@main \x7b #init $A0 #exi\x74 \x7d"

def srcInitLong : String :=
  "@main \x7b initialize capsule $A0 terminate execution \x7d"

def srcDoubleLease : String :=
  "@main \x7b #init $A0 #lease $A0 #lease $A0 #exi\x74 \x7d"

def srcDupString : String :=
  "@main \x7b #error $E, 1, \"x\" #error $E, 2, \"x\" #exi\x74 \x7d"

def srcScenario3 : String :=
  "@main \x7b #init $K0 #load $K0, \"session-key\" #stamp $K0, true #expire $K0, 5m #exi\x74 \x7d"

def srcModule : String := "@module \"m\" @main \x7b #exi\x74 \x7d"

def srcUntermComment : String := "@main \x7b #exi\x74 \x7d /* never closed"

/-- `@main { #init <name> #exi t }` (no space) as the parser produces it
(positions are irrelevant to the emitter). -/
def astInit (name : String) : Node :=
  Node.mk .Program 0 0 "" "" 0 0 false
    [Node.mk .Block 0 0 "@main" "" 0 0 false
      [Node.mk .Init 0 0 name "" 0 0 false [], N .Exit 0 0]]

/-- `@main` with two `#error $E, _, "x"` statements and an exit, as the
parser produces it. -/
def astDupStr : Node :=
  Node.mk .Program 0 0 "" "" 0 0 false
    [Node.mk .Block 0 0 "@main" "" 0 0 false
      [Node.mk .Error 0 0 "$E" "x" 1 0 false [],
       Node.mk .Error 0 0 "$E" "x" 2 0 false [],
       N .Exit 0 0]]

/-- The expression `1 && 2`. -/
def andNode12 : Node :=
  Node.mk .Bin 0 0 "&&" "" 0 0 false
    [Node.mk .ConstI 0 0 "" "" 1 0 false [], Node.mk .ConstI 0 0 "" "" 2 0 false []]

/-! ## Claim theorems -/

deriving instance DecidableEq for Except

/-- The error component of an `Except`, when present (used to state
facts about parse results without comparing syntax trees). -/
def errOf {ε α : Type} (x : Except ε α) : Option ε :=
  match x with
  | .error e => some e
  | .ok _ => none

set_option maxHeartbeats 1600000 in
/-- C1: the claim that shortcode and long-form spellings produce the
same AST and byte-identical outputs fails on the code. The shortcode
program `@main { #init $A0 }` plus the exit statement compiles to the 6-byte image
`01 <id> 07`, while the long-form `@main { initialize capsule $A0
terminate execution }` does not compile at all: `initialize` takes the
filler word `capsule` as its capsule operand (different AST operand
than `#init $A0`), leaves `$A0` dangling, and the parse then fails
with "unexpected expression". -/
theorem claim1_dual_syntax :
    compile hashZero srcInitShort = .ok ⟨[1, 0, 0, 0, 0, 7], [], [], []⟩ ∧
    (Parser.parseStmt Parser.pfuel (Lexer.tokenize "#init $A0")).toOption.map
      (fun r => (r.1.k, r.1.s1)) = some (.Init, "$A0") ∧
    (Parser.parseStmt Parser.pfuel (Lexer.tokenize "initialize capsule $A0")).toOption.map
      (fun r => (r.1.k, r.1.s1)) = some (.Init, "capsule") ∧
    errOf (Parser.parseSource srcInitLong) =
      some ⟨1, 53, "unexpected expression", ""⟩ ∧
    compile hashZero srcInitLong = .error ⟨1, 53, "unexpected expression", ""⟩ := by
  refine ⟨by decide, by decide, by decide, by decide, by decide⟩

/-- C2: capsule operands are not encoded by the claimed
hex-tail/8-bit-hash scheme. For every choice of the
implementation-defined `std::hash` (the parameter `h`), the emitter
encodes *every* capsule identifier — hex tail (`$A0`) or not
(`$render`) — uniformly as the 4-byte value `h name % 2 ^ 32`, with no
hex-tail parsing anywhere; and the hash the spec itself mandates
(FNV-1a, which is also MSVC's `std::hash`) sends `$A0` to
3156538674 mod 2^32, not to the parsed hex byte 0xA0 = 160. -/
theorem claim2_capsule_hash :
    (∀ h : String → Nat,
      Emitter.build h (astInit "$A0") =
        .ok ⟨1 :: Emitter.le32 (h "$A0" % 2 ^ 32) ++ [7], [], []⟩ ∧
      Emitter.build h (astInit "$render") =
        .ok ⟨1 :: Emitter.le32 (h "$render" % 2 ^ 32) ++ [7], [], []⟩) ∧
    fnv1a64 "$A0" % 2 ^ 32 = 3156538674 ∧ (0xA0 : Nat) = 160 := by
  refine ⟨fun h => ⟨rfl, rfl⟩, by decide, by decide⟩

set_option maxHeartbeats 1600000 in
/-- C3: the reference emitter has no constant pool at all, and string
literals are not deduplicated. Compiling a program in which the
literal `"x"` occurs twice (in two `#error` statements) appends the
NUL-terminated bytes of `"x"` to rodata twice — `78 00 78 00` — and
the two ERROR instructions carry the two distinct rodata offsets 0 and
2 as immediates (no pool index exists anywhere in the image). This
holds for every choice of the `std::hash` parameter, and the full
pipeline on the concrete source confirms it. -/
theorem claim3_no_constant_pool :
    (∀ h : String → Nat,
      (Emitter.build h astDupStr).toOption.map Emitter.BuildResult.text =
        some ((0x13 :: Emitter.le32 (h "$E" % 2 ^ 32) ++ [1, 0, 0, 0] ++ [0, 0, 0, 0]) ++
              (0x13 :: Emitter.le32 (h "$E" % 2 ^ 32) ++ [2, 0, 0, 0] ++ [2, 0, 0, 0]) ++
              [7]) ∧
      (Emitter.build h astDupStr).toOption.map Emitter.BuildResult.rodata =
        some [120, 0, 120, 0]) ∧
    compile hashZero srcDupString =
      .ok ⟨[19, 0, 0, 0, 0, 1, 0, 0, 0, 0, 0, 0, 0,
            19, 0, 0, 0, 0, 2, 0, 0, 0, 2, 0, 0, 0, 7],
           [120, 0, 120, 0], [], []⟩ := by
  refine ⟨fun h => ⟨?_, rfl⟩, by decide⟩
  simp [Emitter.build, Emitter.buildGo, Emitter.emitBlock, Emitter.emitStmt,
    Emitter.emitStmtList, Emitter.emit8, Emitter.emit32, Emitter.le32,
    Emitter.strBytes, Emitter.u32ofI64, Emitter.emptyEm, Emitter.resolveRelocs,
    Emitter.BuildResult.text, Except.toOption, astDupStr, Node.k, Node.s1,
    Node.xs, N]

set_option maxHeartbeats 1600000 in
/-- C4 counterexample: lowering `1 && 2` emits both operands followed
by `BIN 2` — twelve bytes containing no `JZ` (0x30) and no `JNZ`
(0x31) — whereas the claim requires a JZ branch that skips the right
operand. -/
theorem claim4_counterexample :
    (Emitter.emitExpr hashZero andNode12 Emitter.emptyEm).text =
      [0x20, 1, 0, 0, 0, 0x20, 2, 0, 0, 0, 0x23, 2] ∧
    ((Emitter.emitExpr hashZero andNode12 Emitter.emptyEm).text.contains 0x30 ||
     (Emitter.emitExpr hashZero andNode12 Emitter.emptyEm).text.contains 0x31) = false := by
  refine ⟨by decide, by decide⟩

/-- C4 amended: the emitter lowers `L && R` and `L || R` eagerly, like
every other binary operator — the code for `L`, then the code for `R`
(always emitted, so the right operand is always evaluated at run
time), then `BIN 2` resp. `BIN 1`; no `JZ`/`JNZ` short-circuit branch
and no patching are involved. -/
theorem claim4_eager_logical_ops :
    ∀ (h : String → Nat) (l r : Node) (L C : Nat) (st : Emitter.EmSt),
      (Emitter.emitExpr h (Node.mk .Bin L C "&&" "" 0 0 false [l, r]) st).text =
        (Emitter.emitExpr h r (Emitter.emitExpr h l st)).text ++ [0x23, 2] ∧
      (Emitter.emitExpr h (Node.mk .Bin L C "||" "" 0 0 false [l, r]) st).text =
        (Emitter.emitExpr h r (Emitter.emitExpr h l st)).text ++ [0x23, 1] := by
  intro h l r L C st
  constructor
  · show (Emitter.emit8 2 (Emitter.emit8 0x23
      (Emitter.emitExpr h r (Emitter.emitExpr h l st)))).text = _
    simp [Emitter.emit8]
  · show (Emitter.emit8 1 (Emitter.emit8 0x23
      (Emitter.emitExpr h r (Emitter.emitExpr h l st)))).text = _
    simp [Emitter.emit8]

/-- C5 counterexample: on the window `PUSHK 1; PUSHK 0; BIN DIV` (and
likewise `BIN MOD`), the peephole does not leave the twelve bytes
intact — it folds the window to the five bytes `PUSHK 0`. -/
theorem claim5_counterexample :
    Optimizer.peephole [0x20, 1, 0, 0, 0, 0x20, 0, 0, 0, 0, 0x23, 12] =
      [0x20, 0, 0, 0, 0] ∧
    Optimizer.peephole [0x20, 1, 0, 0, 0, 0x20, 0, 0, 0, 0, 0x23, 13] =
      [0x20, 0, 0, 0, 0] := by
  refine ⟨by decide, by decide⟩

theorem rd32_le32 (a : Nat) (ha : a < 2 ^ 32) :
    Emitter.rd32 (a % 256) (a / 256 % 256) (a / 65536 % 256) (a / 16777216 % 256) = a := by
  simp only [Emitter.rd32]
  omega

/-- C5 amended: a `PUSHK a; PUSHK b; BIN op` window with op in
{ADD, SUB, MUL, DIV, MOD} is folded to a single `PUSHK (foldK op a b)`
and the scan continues after the window; the folded value is the
unsigned 32-bit wraparound of a op b — except that when op is DIV or
MOD and b = 0 the window is folded to `PUSHK 0` (it is *not* left
intact). -/
theorem claim5_peephole_fold :
    ∀ (a b bop : Nat) (rest : List Nat),
      a < 2 ^ 32 → b < 2 ^ 32 →
      bop = 9 ∨ bop = 10 ∨ bop = 11 ∨ bop = 12 ∨ bop = 13 →
      Optimizer.peephole
          (0x20 :: Emitter.le32 a ++ 0x20 :: Emitter.le32 b ++ [0x23, bop] ++ rest) =
        0x20 :: Emitter.le32 (Optimizer.foldK bop a b) ++ Optimizer.peephole rest ∧
      Optimizer.foldK 9 a b = (a + b) % 2 ^ 32 ∧
      Optimizer.foldK 10 a b = (a + (2 ^ 32 - b)) % 2 ^ 32 ∧
      Optimizer.foldK 11 a b = a * b % 2 ^ 32 ∧
      (0 < b → Optimizer.foldK 12 a b = a / b ∧ Optimizer.foldK 13 a b = a % b) ∧
      Optimizer.foldK 12 a 0 = 0 ∧ Optimizer.foldK 13 a 0 = 0 := by
  intro a b bop rest ha hb hbop
  refine ⟨?_, ?_, ?_, ?_, ?_, ?_, ?_⟩
  · show Optimizer.peepholeGo _ _ = _
    have hlen :
        (0x20 :: Emitter.le32 a ++ 0x20 :: Emitter.le32 b ++ [0x23, bop] ++ rest).length =
          11 + rest.length + 1 := by
      simp [Emitter.le32]
      omega
    rw [hlen]
    simp only [Emitter.le32, List.cons_append, List.nil_append, List.append_assoc]
    simp only [Optimizer.peepholeGo]
    rw [if_pos ⟨trivial, trivial, trivial, hbop⟩]
    rw [rd32_le32 a ha, rd32_le32 b hb]
    rw [Optimizer.peepholeGo_eq_of_le (11 + rest.length) rest rest.length
      (by omega) (Nat.le_refl _)]
    rfl
  · simp [Optimizer.foldK]
    omega
  · simp [Optimizer.foldK]
    omega
  · simp [Optimizer.foldK]
    have hm : ((a : Int) * (b : Int)) = ((a * b : Nat) : Int) := by
      push_cast
      ring
    rw [hm]
    omega
  · intro hbpos
    constructor
    · simp [Optimizer.foldK, Nat.pos_iff_ne_zero.mp hbpos]
      have hd : ((a : Int) / (b : Int)) = ((a / b : Nat) : Int) :=
        (Int.ofNat_ediv a b).symm
      rw [hd]
      have hlt : a / b < 4294967296 :=
        Nat.lt_of_le_of_lt (Nat.div_le_self a b) (by omega)
      rw [Int.emod_eq_of_lt (Int.natCast_nonneg _) (by exact_mod_cast hlt)]
      exact Int.toNat_natCast _
    · simp [Optimizer.foldK, Nat.pos_iff_ne_zero.mp hbpos]
      have hd : ((a : Int) % (b : Int)) = ((a % b : Nat) : Int) := by
        push_cast
        ring
      rw [hd]
      have hlt : a % b < 4294967296 :=
        Nat.lt_of_le_of_lt (Nat.mod_le a b) (by omega)
      rw [Int.emod_eq_of_lt (Int.natCast_nonneg _) (by exact_mod_cast hlt)]
      exact Int.toNat_natCast _
  · simp [Optimizer.foldK]
  · simp [Optimizer.foldK]

/-- Witness for C5: a concrete DIV window `PUSHK 6; PUSHK 3; BIN DIV`
folds to `PUSHK 2`. -/
theorem claim5_peephole_fold_witness :
    Optimizer.peephole
        (0x20 :: Emitter.le32 6 ++ 0x20 :: Emitter.le32 3 ++ [0x23, 12] ++ []) =
      0x20 :: Emitter.le32 (Optimizer.foldK 12 6 3) ++ Optimizer.peephole [] ∧
    Optimizer.foldK 12 6 3 = 2 :=
  ⟨(claim5_peephole_fold 6 3 12 [] (by decide) (by decide) (by decide)).1, by decide⟩

set_option maxHeartbeats 1600000 in
/-- C6: the Star-Code validator has no lease tracking and no SC010
check. The double-lease program parses, the validator returns an empty
diagnostic list, the pipeline does not abort, and a full output image
is produced (shown for a sample hash instantiation). -/
theorem claim6_no_sc010 :
    ((Parser.parseSource srcDoubleLease).toOption.map fun r => StarCode.run r.1) =
      some [] ∧
    compile hashZero srcDoubleLease =
      .ok ⟨[1, 0, 0, 0, 0, 2, 0, 0, 0, 0, 2, 0, 0, 0, 0, 7], [], [], []⟩ := by
  refine ⟨by decide, by decide⟩

set_option maxHeartbeats 1600000 in
/-- C7 counterexample: a source ending in an unterminated block
comment does not produce a LexError — the lexer silently consumes the
comment to end of input and returns the `End` token, and a program
followed by such a comment compiles successfully. -/
theorem claim7_counterexample :
    (Lexer.nextToken ⟨"/* never closed".toList, 1, 1⟩).1.kind = .End ∧
    compile hashZero srcUntermComment = .ok ⟨[7], [], [], []⟩ := by
  refine ⟨by decide, by decide⟩

/-- The string-scan loop never finds a terminator when no quote
character remains (escape consumption cannot conjure one up). -/
theorem lexStrGo_none :
    ∀ (n : Nat) (cs : List Char), cs.length ≤ n → ∀ acc : String,
      '"' ∉ cs → Lexer.lexStrGo acc cs = none := by
  intro n
  induction n with
  | zero =>
    intro cs hlen acc _
    have hc : cs = [] := List.length_eq_zero.mp (Nat.le_zero.mp hlen)
    subst hc
    rfl
  | succ n ih =>
    intro cs hlen acc hq
    cases cs with
    | nil => rfl
    | cons c cs =>
      have hcq : ¬c = '"' := by
        intro hc
        exact hq (by simp [hc])
      have hq' : '"' ∉ cs := fun hmem => hq (List.mem_cons_of_mem c hmem)
      by_cases hb : c = '\\'
      · cases cs with
        | nil =>
          conv_lhs => rw [Lexer.lexStrGo.eq_def]
          simp [hcq, hb]
        | cons e cs2 =>
          have hstep : Lexer.lexStrGo acc (c :: e :: cs2) =
              Lexer.lexStrGo (acc.push (Lexer.escChar e)) cs2 := by
            conv_lhs => rw [Lexer.lexStrGo.eq_def]
            simp [hcq, hb]
          rw [hstep]
          exact ih cs2 (by simp at hlen ⊢; omega) _
            (fun hmem => hq' (List.mem_cons_of_mem e hmem))
      · have hstep : Lexer.lexStrGo acc (c :: cs) =
            Lexer.lexStrGo (acc.push c) cs := by
          conv_lhs => rw [Lexer.lexStrGo.eq_def]
          simp [hcq, hb]
        rw [hstep]
        exact ih cs (by simp at hlen; omega) _ hq'

/-- C7 amended: an unterminated *string* does yield a single Error
token carrying the position of the opening quote (for any state whose
remaining input holds no closing quote), but an unterminated *block
comment* is silently consumed to end of input: the lexer returns the
End token, not a LexError. -/
theorem claim7_unterminated :
    (∀ (st : Lexer.LexState) (L C : Nat), '"' ∉ st.rest →
      (Lexer.lexString st L C).1 = mkT .Error "unterminated string" L C) ∧
    (Lexer.nextToken ⟨"/* x".toList, 1, 1⟩).1 = mkT .End "" 1 5 := by
  constructor
  · intro st L C hq
    unfold Lexer.lexString
    rw [lexStrGo_none st.rest.length st.rest (Nat.le_refl _) "" hq]
  · decide

/-- Witness for C7: the unterminated string source `"abc` produces the
Error token at the opening quote's position. -/
theorem claim7_unterminated_witness :
    (Lexer.lexString ⟨"abc".toList, 1, 2⟩ 1 1).1 =
      mkT .Error "unterminated string" 1 1 :=
  claim7_unterminated.1 ⟨"abc".toList, 1, 2⟩ 1 1 (by decide)

/-- A `while (P(peek())) get()` run over `xs ++ ys` consumes exactly
`xs` when every char of `xs` satisfies `P` and the head of `ys` (if
any) does not. -/
theorem spanP_append (P : Char → Bool) :
    ∀ (xs ys : List Char), xs.all P = true →
      (∀ c, ys.head? = some c → P c = false) →
      Lexer.spanP P (xs ++ ys) = (xs, ys) := by
  intro xs
  induction xs with
  | nil =>
    intro ys _ hy
    cases ys with
    | nil => rfl
    | cons y ys =>
      have hp : P y = false := hy y rfl
      simp [Lexer.spanP, hp]
  | cons x xs ih =>
    intro ys hall hy
    simp only [List.all_cons, Bool.and_eq_true] at hall
    simp [Lexer.spanP, hall.1, ih ys hall.2 hy]

/-- Characters of the Latin alphabet are never decimal digits. -/
theorem isAlphaC_not_digit (c : Char) (h : isAlphaC c = true) : isDigitC c = false := by
  simp [isAlphaC, isDigitC] at *
  omega

set_option maxHeartbeats 1600000 in
/-- C8: a decimal or hex numeric literal immediately followed by one
of the unit suffixes `ns`, `ms`, `s`, `m`, `h` lexes to a Duration
token whose value is the literal times 1, 10^6, 10^9, 6*10^10 or
36*10^11 nanoseconds respectively (exactly, whenever the product fits
in unsigned 64-bit); a numeric literal followed by any other
alphabetic suffix lexes to an Error token. The hypotheses pin down the
lexical shape: the digit run, the maximal alphabetic suffix, and (for
the decimal form) that the literal is not a `0x`/`0X` hex form. -/
theorem claim8_duration_suffix :
    (∀ u ∈ ([("ns", 1), ("ms", 1000000), ("s", 1000000000),
        ("m", 60000000000), ("h", 3600000000000)] : List (String × Nat)),
      ∀ (ds rest : List Char) (ln col L C : Nat),
        ds ≠ [] → ds.all isDigitC = true →
        Lexer.startsWithL ['0', 'x'] (ds ++ (u.1.toList ++ rest)) = false →
        Lexer.startsWithL ['0', 'X'] (ds ++ (u.1.toList ++ rest)) = false →
        (∀ c, rest.head? = some c → isAlphaC c = false) →
        Lexer.strtoull10 ds * u.2 < 2 ^ 64 →
        (Lexer.lexNumberOrDuration ⟨ds ++ (u.1.toList ++ rest), ln, col⟩ L C).1.kind
            = .Duration ∧
        (Lexer.lexNumberOrDuration ⟨ds ++ (u.1.toList ++ rest), ln, col⟩ L C).1.du =
          Lexer.strtoull10 ds * u.2) ∧
    (∀ u ∈ ([("ns", 1), ("ms", 1000000), ("s", 1000000000),
        ("m", 60000000000), ("h", 3600000000000)] : List (String × Nat)),
      ∀ (hs rest : List Char) (ln col L C : Nat),
        hs.all isXdigitC = true →
        (∀ c, rest.head? = some c → isAlphaC c = false) →
        Lexer.strtoull16 hs * u.2 < 2 ^ 64 →
        (Lexer.lexNumberOrDuration ⟨'0' :: 'x' :: (hs ++ (u.1.toList ++ rest)), ln, col⟩
            L C).1.kind = .Duration ∧
        (Lexer.lexNumberOrDuration ⟨'0' :: 'x' :: (hs ++ (u.1.toList ++ rest)), ln, col⟩
            L C).1.du = Lexer.strtoull16 hs * u.2) ∧
    (∀ (suf ds rest : List Char) (ln col L C : Nat),
      ds ≠ [] → ds.all isDigitC = true →
      Lexer.startsWithL ['0', 'x'] (ds ++ (suf ++ rest)) = false →
      Lexer.startsWithL ['0', 'X'] (ds ++ (suf ++ rest)) = false →
      suf ≠ [] → suf.all isAlphaC = true →
      (⟨suf⟩ : String) ∉ (["ns", "ms", "s", "m", "h"] : List String) →
      (∀ c, rest.head? = some c → isAlphaC c = false) →
      (Lexer.lexNumberOrDuration ⟨ds ++ (suf ++ rest), ln, col⟩ L C).1.kind = .Error) ∧
    (∀ (suf hs rest : List Char) (ln col L C : Nat),
      hs.all isXdigitC = true →
      suf ≠ [] → suf.all isAlphaC = true →
      (∀ c, suf.head? = some c → isXdigitC c = false) →
      (⟨suf⟩ : String) ∉ (["ns", "ms", "s", "m", "h"] : List String) →
      (∀ c, rest.head? = some c → isAlphaC c = false) →
      (Lexer.lexNumberOrDuration ⟨'0' :: 'x' :: (hs ++ (suf ++ rest)), ln, col⟩
          L C).1.kind = .Error) := by
  refine ⟨?_, ?_, ?_, ?_⟩
  · intro u hu ds rest ln col L C hne hds hx hX hrest hv
    simp only [List.mem_cons, List.not_mem_nil, or_false] at hu
    rcases hu with rfl | rfl | rfl | rfl | rfl
    · dsimp only at *
      have hsuf : ("ns".toList : List Char) = ['n', 's'] := rfl
      rw [hsuf] at hx hX ⊢
      have hd_head : ∀ c, (['n', 's'] ++ rest).head? = some c → isDigitC c = false := by
        intro c hc
        simp at hc
        subst hc
        decide
      have hspan1 := spanP_append isDigitC ds (['n', 's'] ++ rest) hds hd_head
      have hspan2 : Lexer.spanP isAlphaC ('n' :: 's' :: rest) = (['n', 's'], rest) := by
        have h2 := spanP_append isAlphaC ['n', 's'] rest (by decide) hrest
        simpa using h2
      have hstr : ({ data := ['n', 's'] } : String) = "ns" := rfl
      simp only [List.cons_append, List.nil_append] at hspan1 hx hX ⊢
      simp only [Lexer.lexNumberOrDuration, hx, hX, Bool.or_self, hspan1, hspan2]
      simp [hne, hspan2, hstr]
    · dsimp only at *
      have hsuf : ("ms".toList : List Char) = ['m', 's'] := rfl
      rw [hsuf] at hx hX ⊢
      have hd_head : ∀ c, (['m', 's'] ++ rest).head? = some c → isDigitC c = false := by
        intro c hc
        simp at hc
        subst hc
        decide
      have hspan1 := spanP_append isDigitC ds (['m', 's'] ++ rest) hds hd_head
      have hspan2 : Lexer.spanP isAlphaC ('m' :: 's' :: rest) = (['m', 's'], rest) := by
        have h2 := spanP_append isAlphaC ['m', 's'] rest (by decide) hrest
        simpa using h2
      have hstr : ({ data := ['m', 's'] } : String) = "ms" := rfl
      simp only [List.cons_append, List.nil_append] at hspan1 hx hX ⊢
      simp only [Lexer.lexNumberOrDuration, hx, hX, Bool.or_self, hspan1, hspan2]
      simp [hne, hspan2, hstr]
      omega
    · dsimp only at *
      have hsuf : ("s".toList : List Char) = ['s'] := rfl
      rw [hsuf] at hx hX ⊢
      have hd_head : ∀ c, (['s'] ++ rest).head? = some c → isDigitC c = false := by
        intro c hc
        simp at hc
        subst hc
        decide
      have hspan1 := spanP_append isDigitC ds (['s'] ++ rest) hds hd_head
      have hspan2 : Lexer.spanP isAlphaC ('s' :: rest) = (['s'], rest) := by
        have h2 := spanP_append isAlphaC ['s'] rest (by decide) hrest
        simpa using h2
      have hstr : ({ data := ['s'] } : String) = "s" := rfl
      simp only [List.cons_append, List.nil_append] at hspan1 hx hX ⊢
      simp only [Lexer.lexNumberOrDuration, hx, hX, Bool.or_self, hspan1, hspan2]
      simp [hne, hspan2, hstr]
      omega
    · dsimp only at *
      have hsuf : ("m".toList : List Char) = ['m'] := rfl
      rw [hsuf] at hx hX ⊢
      have hd_head : ∀ c, (['m'] ++ rest).head? = some c → isDigitC c = false := by
        intro c hc
        simp at hc
        subst hc
        decide
      have hspan1 := spanP_append isDigitC ds (['m'] ++ rest) hds hd_head
      have hspan2 : Lexer.spanP isAlphaC ('m' :: rest) = (['m'], rest) := by
        have h2 := spanP_append isAlphaC ['m'] rest (by decide) hrest
        simpa using h2
      have hstr : ({ data := ['m'] } : String) = "m" := rfl
      simp only [List.cons_append, List.nil_append] at hspan1 hx hX ⊢
      simp only [Lexer.lexNumberOrDuration, hx, hX, Bool.or_self, hspan1, hspan2]
      simp [hne, hspan2, hstr]
      omega
    · dsimp only at *
      have hsuf : ("h".toList : List Char) = ['h'] := rfl
      rw [hsuf] at hx hX ⊢
      have hd_head : ∀ c, (['h'] ++ rest).head? = some c → isDigitC c = false := by
        intro c hc
        simp at hc
        subst hc
        decide
      have hspan1 := spanP_append isDigitC ds (['h'] ++ rest) hds hd_head
      have hspan2 : Lexer.spanP isAlphaC ('h' :: rest) = (['h'], rest) := by
        have h2 := spanP_append isAlphaC ['h'] rest (by decide) hrest
        simpa using h2
      have hstr : ({ data := ['h'] } : String) = "h" := rfl
      simp only [List.cons_append, List.nil_append] at hspan1 hx hX ⊢
      simp only [Lexer.lexNumberOrDuration, hx, hX, Bool.or_self, hspan1, hspan2]
      simp [hne, hspan2, hstr]
      omega
  · intro u hu hs rest ln col L C hds hrest hv
    simp only [List.mem_cons, List.not_mem_nil, or_false] at hu
    rcases hu with rfl | rfl | rfl | rfl | rfl
    · dsimp only at *
      have hsuf : ("ns".toList : List Char) = ['n', 's'] := rfl
      rw [hsuf]
      have hd_head : ∀ c, (['n', 's'] ++ rest).head? = some c → isXdigitC c = false := by
        intro c hc
        simp at hc
        subst hc
        decide
      have hspan1 := spanP_append isXdigitC hs (['n', 's'] ++ rest) hds hd_head
      have hspan2 : Lexer.spanP isAlphaC ('n' :: 's' :: rest) = (['n', 's'], rest) := by
        have h2 := spanP_append isAlphaC ['n', 's'] rest (by decide) hrest
        simpa using h2
      have hstr : ({ data := ['n', 's'] } : String) = "ns" := rfl
      simp only [List.cons_append, List.nil_append] at hspan1 ⊢
      simp [Lexer.lexNumberOrDuration, Lexer.startsWithL, hspan1, hspan2, hstr]
    · dsimp only at *
      have hsuf : ("ms".toList : List Char) = ['m', 's'] := rfl
      rw [hsuf]
      have hd_head : ∀ c, (['m', 's'] ++ rest).head? = some c → isXdigitC c = false := by
        intro c hc
        simp at hc
        subst hc
        decide
      have hspan1 := spanP_append isXdigitC hs (['m', 's'] ++ rest) hds hd_head
      have hspan2 : Lexer.spanP isAlphaC ('m' :: 's' :: rest) = (['m', 's'], rest) := by
        have h2 := spanP_append isAlphaC ['m', 's'] rest (by decide) hrest
        simpa using h2
      have hstr : ({ data := ['m', 's'] } : String) = "ms" := rfl
      simp only [List.cons_append, List.nil_append] at hspan1 ⊢
      simp [Lexer.lexNumberOrDuration, Lexer.startsWithL, hspan1, hspan2, hstr]
      omega
    · dsimp only at *
      have hsuf : ("s".toList : List Char) = ['s'] := rfl
      rw [hsuf]
      have hd_head : ∀ c, (['s'] ++ rest).head? = some c → isXdigitC c = false := by
        intro c hc
        simp at hc
        subst hc
        decide
      have hspan1 := spanP_append isXdigitC hs (['s'] ++ rest) hds hd_head
      have hspan2 : Lexer.spanP isAlphaC ('s' :: rest) = (['s'], rest) := by
        have h2 := spanP_append isAlphaC ['s'] rest (by decide) hrest
        simpa using h2
      have hstr : ({ data := ['s'] } : String) = "s" := rfl
      simp only [List.cons_append, List.nil_append] at hspan1 ⊢
      simp [Lexer.lexNumberOrDuration, Lexer.startsWithL, hspan1, hspan2, hstr]
      omega
    · dsimp only at *
      have hsuf : ("m".toList : List Char) = ['m'] := rfl
      rw [hsuf]
      have hd_head : ∀ c, (['m'] ++ rest).head? = some c → isXdigitC c = false := by
        intro c hc
        simp at hc
        subst hc
        decide
      have hspan1 := spanP_append isXdigitC hs (['m'] ++ rest) hds hd_head
      have hspan2 : Lexer.spanP isAlphaC ('m' :: rest) = (['m'], rest) := by
        have h2 := spanP_append isAlphaC ['m'] rest (by decide) hrest
        simpa using h2
      have hstr : ({ data := ['m'] } : String) = "m" := rfl
      simp only [List.cons_append, List.nil_append] at hspan1 ⊢
      simp [Lexer.lexNumberOrDuration, Lexer.startsWithL, hspan1, hspan2, hstr]
      omega
    · dsimp only at *
      have hsuf : ("h".toList : List Char) = ['h'] := rfl
      rw [hsuf]
      have hd_head : ∀ c, (['h'] ++ rest).head? = some c → isXdigitC c = false := by
        intro c hc
        simp at hc
        subst hc
        decide
      have hspan1 := spanP_append isXdigitC hs (['h'] ++ rest) hds hd_head
      have hspan2 : Lexer.spanP isAlphaC ('h' :: rest) = (['h'], rest) := by
        have h2 := spanP_append isAlphaC ['h'] rest (by decide) hrest
        simpa using h2
      have hstr : ({ data := ['h'] } : String) = "h" := rfl
      simp only [List.cons_append, List.nil_append] at hspan1 ⊢
      simp [Lexer.lexNumberOrDuration, Lexer.startsWithL, hspan1, hspan2, hstr]
      omega
  · intro suf ds rest ln col L C hne hds hx hX hsne hsall hnotin hrest
    cases suf with
    | nil => exact absurd rfl hsne
    | cons s0 suf2 =>
      have hs0 : isAlphaC s0 = true := by
        simp only [List.all_cons, Bool.and_eq_true] at hsall
        exact hsall.1
      have hd_head : ∀ c, ((s0 :: suf2) ++ rest).head? = some c → isDigitC c = false := by
        intro c hc
        simp at hc
        subst hc
        exact isAlphaC_not_digit s0 hs0
      have hspan1 := spanP_append isDigitC ds ((s0 :: suf2) ++ rest) hds hd_head
      have hspan2 : Lexer.spanP isAlphaC (s0 :: (suf2 ++ rest)) = (s0 :: suf2, rest) := by
        have h2 := spanP_append isAlphaC (s0 :: suf2) rest hsall hrest
        simpa using h2
      have e1 : ¬(({ data := s0 :: suf2 } : String) = "ns") :=
        fun h => hnotin (by rw [h]; simp)
      have e2 : ¬(({ data := s0 :: suf2 } : String) = "ms") :=
        fun h => hnotin (by rw [h]; simp)
      have e3 : ¬(({ data := s0 :: suf2 } : String) = "s") :=
        fun h => hnotin (by rw [h]; simp)
      have e4 : ¬(({ data := s0 :: suf2 } : String) = "m") :=
        fun h => hnotin (by rw [h]; simp)
      have e5 : ¬(({ data := s0 :: suf2 } : String) = "h") :=
        fun h => hnotin (by rw [h]; simp)
      simp only [List.cons_append, List.nil_append] at hspan1 hx hX ⊢
      simp only [Lexer.lexNumberOrDuration, hx, hX, Bool.or_self, hspan1, hspan2]
      simp [mkT, hspan2, e1, e2, e3, e4, e5]
  · intro suf hs rest ln col L C hds hsne hsall hsx hnotin hrest
    cases suf with
    | nil => exact absurd rfl hsne
    | cons s0 suf2 =>
      have hd_head : ∀ c, ((s0 :: suf2) ++ rest).head? = some c → isXdigitC c = false := by
        intro c hc
        simp at hc
        subst hc
        exact hsx s0 rfl
      have hspan1 := spanP_append isXdigitC hs ((s0 :: suf2) ++ rest) hds hd_head
      have hspan2 : Lexer.spanP isAlphaC (s0 :: (suf2 ++ rest)) = (s0 :: suf2, rest) := by
        have h2 := spanP_append isAlphaC (s0 :: suf2) rest hsall hrest
        simpa using h2
      have e1 : ¬(({ data := s0 :: suf2 } : String) = "ns") :=
        fun h => hnotin (by rw [h]; simp)
      have e2 : ¬(({ data := s0 :: suf2 } : String) = "ms") :=
        fun h => hnotin (by rw [h]; simp)
      have e3 : ¬(({ data := s0 :: suf2 } : String) = "s") :=
        fun h => hnotin (by rw [h]; simp)
      have e4 : ¬(({ data := s0 :: suf2 } : String) = "m") :=
        fun h => hnotin (by rw [h]; simp)
      have e5 : ¬(({ data := s0 :: suf2 } : String) = "h") :=
        fun h => hnotin (by rw [h]; simp)
      simp only [List.cons_append, List.nil_append] at hspan1 ⊢
      simp [Lexer.lexNumberOrDuration, Lexer.startsWithL, mkT, hspan1, hspan2,
        e1, e2, e3, e4, e5]

/-- Witness for C8: `5m` lexes to a 300000000000 ns Duration and `7q`
to an Error token. -/
theorem claim8_duration_suffix_witness :
    (Lexer.lexNumberOrDuration ⟨"5m".toList, 1, 1⟩ 1 1).1.kind = .Duration ∧
    (Lexer.lexNumberOrDuration ⟨"5m".toList, 1, 1⟩ 1 1).1.du = 300000000000 ∧
    (Lexer.lexNumberOrDuration ⟨"7q".toList, 1, 1⟩ 1 1).1.kind = .Error := by
  have hdur := claim8_duration_suffix.1 ("m", 60000000000) (by simp)
    ['5'] [] 1 1 1 1 (by decide) (by decide) (by decide) (by decide)
    (fun c hc => by simp at hc) (by decide)
  have herr := claim8_duration_suffix.2.2.1 ['q'] ['7'] [] 1 1 1 1
    (by decide) (by decide) (by decide) (by decide) (by decide)
    (by decide) (by decide) (fun c hc => by simp at hc)
  refine ⟨hdur.1, ?_, herr⟩
  have h2 := hdur.2
  simpa using h2

set_option maxHeartbeats 1600000 in
/-- C9: the claim's scenario does not compile at all: when parsing
`#load $K0, "session-key"`, the Pratt loop (minimum precedence 0, and
precedence 0 for every non-operator token) swallows the following
statement tokens as operators until it reaches the duration literal
`5m`, which is not a primary expression, and parsing fails with
"unexpected expression" — so no rodata is produced. Moreover, even on
a directly constructed `Expire` node, the emitter has no constant
pool: it truncates the 5-minute duration 300000000000 ns to the 4-byte
immediate 300000000000 mod 2^32 = 3647256576 (for every hash
parameter), so no operand could resolve to 300000000000. -/
theorem claim9_scenario3 :
    errOf (Parser.parseSource srcScenario3) =
      some ⟨1, 74, "unexpected expression", "5m"⟩ ∧
    compile hashZero srcScenario3 = .error ⟨1, 74, "unexpected expression", "5m"⟩ ∧
    (∀ h : String → Nat,
      (Emitter.emitStmt h (Node.mk .Expire 0 0 "$K0" "" 0 300000000000 false [])
          Emitter.emptyEm).text =
        0x10 :: Emitter.le32 (h "$K0" % 2 ^ 32) ++ [0, 184, 100, 217]) ∧
    (300000000000 : Nat) % 2 ^ 32 = 3647256576 ∧
    Emitter.le32 3647256576 = [0, 184, 100, 217] := by
  refine ⟨by decide, by decide, fun h => rfl, by decide, by decide⟩

/-- C10: `Parser::parseModule` never succeeds — for every fuel and
every parser state its result is an error (either a failed
`expect`/`adv`, or the unconditional "internal: module path capture
not implemented") — and on a concrete program carrying a
`@module "m"` declaration the parse fails with exactly that internal
message. -/
theorem claim10_module_always_fails :
    (∀ (fuel : Nat) (st : Parser.PState), (Parser.parseModule fuel st).isOk = false) ∧
    errOf (Parser.parseSource srcModule) =
      some ⟨1, 13, "internal: module path capture not implemented", "@main"⟩ := by
  constructor
  · intro fuel st
    match fuel with
    | 0 => rfl
    | fuel + 1 =>
      simp only [Parser.parseModule]
      cases Parser.adv st with
      | error e => rfl
      | ok st1 =>
        show (match Parser.expect st1 Tok.String "\"path\"" with
          | Except.error e => (Except.error e : Except Parser.PErr (Node × Parser.PState))
          | Except.ok st =>
            Except.error
              (Parser.perr st "internal: module path capture not implemented")).isOk
          = false
        cases Parser.expect st1 Tok.String "\"path\"" with
        | error e => rfl
        | ok st2 => rfl
  · decide

end EMinor
